import Mathlib

/-!
Verification development for the ResumeWise refinement engine
(`backend/app/core/resume_agent.py`).

The Python source is shallowly embedded: pure helpers are translated to
computable Lean functions over `String`/`List`; external LLM calls and the
regex-based token extractors are modelled as oracle function parameters
(fields of `Detectors`, `LoopEnv`, `AgentEnv`); calls that may raise are
modelled with `Except Unit`/`Option` where the raised exception is
observable by the caller.  Python `dict`s become insertion-ordered
association lists.  Display-only strings (issue descriptions, log lines)
are elided or simplified where no control flow depends on them; every such
elision is noted next to the definition.
-/

/-! ## Python string primitives

Python `str.split()` (no argument) splits on runs of whitespace and drops
empty pieces; `str.strip()` trims whitespace at both ends.  Python
whitespace for these operations is space, tab, newline, carriage return,
vertical tab and form feed. -/

def pyIsSpace (c : Char) : Bool :=
  c = ' ' || c = '\t' || c = '\n' || c = '\r' || c = '\x0b' || c = '\x0c'

def splitWsAux : List Char → List Char → List String
  | [], acc => if acc.isEmpty then [] else [String.mk acc.reverse]
  | c :: cs, acc =>
    if pyIsSpace c then
      if acc.isEmpty then splitWsAux cs []
      else String.mk acc.reverse :: splitWsAux cs []
    else splitWsAux cs (c :: acc)

/-- Python `s.split()` with no separator. -/
def pySplitWs (s : String) : List String := splitWsAux s.data []

/-- `len(s.split())`, the word count used by the length-blowup check. -/
def pyWordCount (s : String) : Nat := (pySplitWs s).length

/-- Python `s.strip()`. -/
def pyStrip (s : String) : String :=
  String.mk (((s.data.dropWhile (pyIsSpace ·)).reverse.dropWhile (pyIsSpace ·)).reverse)

/-- Does `needle` occur as a contiguous sublist of `hay`? -/
def listIsInfix (needle : List Char) : List Char → Bool
  | [] => needle.isEmpty
  | c :: cs => needle.isPrefixOf (c :: cs) || listIsInfix needle cs

/-- Python `needle in hay` (substring containment). -/
def strContains (hay needle : String) : Bool :=
  listIsInfix needle.data hay.data

/-- Python `s.lower()` (the source only lowercases ASCII text). -/
def pyLower (s : String) : String := String.mk (s.data.map Char.toLower)

/-- Python `s.split(sep)` for a single-character separator (keeps empty
pieces; splitting the empty string yields `[""]`). -/
def splitOnCharAux (sep : Char) : List Char → List Char → List String
  | [], acc => [String.mk acc.reverse]
  | c :: cs, acc =>
    if c = sep then String.mk acc.reverse :: splitOnCharAux sep cs []
    else splitOnCharAux sep cs (c :: acc)

/-- Python `s.split('\n')`. -/
def pySplitLines (s : String) : List String := splitOnCharAux '\n' s.data []

/-- `sep.join(parts)`. -/
def strIntercalate (sep : String) : List String → String
  | [] => ""
  | [x] => x
  | x :: xs => x ++ sep ++ strIntercalate sep xs

/-- Decimal rendering of a natural number (structural, fuel-based). -/
def natDigitsAux : Nat → Nat → List Char → List Char
  | 0, _, acc => acc
  | fuel + 1, n, acc =>
    let d := Char.ofNat (48 + n % 10)
    if n < 10 then d :: acc else natDigitsAux fuel (n / 10) (d :: acc)

def natToString (n : Nat) : String := String.mk (natDigitsAux (n + 1) n [])

/-- Python `s.count(c)` for a single-character needle. -/
def countChar (s : String) (c : Char) : Nat := s.data.count c

/-- Python `s[:n] + "..." if len(s) > n else s`. -/
def pyTruncate (s : String) (n : Nat) : String :=
  if s.data.length > n then String.mk (s.data.take n) ++ "..." else s

/-- First maximal run of digits in a character list (`re.search(r'\d+', s)`). -/
def firstDigitRun : List Char → Option (List Char)
  | [] => none
  | c :: cs =>
    if c.isDigit then some (c :: cs.takeWhile Char.isDigit) else firstDigitRun cs

/-- `int` applied to a non-empty digit string. -/
def digitsToNat (ds : List Char) : Nat :=
  ds.foldl (fun n c => 10 * n + (c.toNat - 48)) 0

/-! ## Word-set similarity

`_calculate_content_similarity` and `_calculate_bullet_similarity` compute
Jaccard similarity over word sets.  Sets are modelled as deduplicated
lists.  Similarities are kept as exact `intersection/union` ratios and the
float thresholds 0.6 / 0.95 / 0.98 are compared by cross-multiplication
(for the word-set sizes arising here the Python float comparison agrees
with the exact rational one). -/

def interCount (a b : List String) : Nat :=
  (a.filter (fun x => b.contains x)).length

def unionCount (a b : List String) : Nat :=
  a.length + (b.filter (fun x => !a.contains x)).length

/-- A Jaccard similarity value `inter/uni` kept in exact form. -/
structure SimilarityRatio where
  inter : Nat
  uni : Nat
deriving DecidableEq, Repr

/-- `r > num/den`, compared exactly. -/
def SimilarityRatio.gtFrac (r : SimilarityRatio) (num den : Nat) : Bool :=
  den * r.inter > num * r.uni

/-- Jaccard similarity of two word sets (deduplicated lists), with the
source's special cases for empty inputs (`1.0` and `0.0`). -/
def similarityOfSets (w1 w2 : List String) : SimilarityRatio :=
  if w1.isEmpty && w2.isEmpty then { inter := 1, uni := 1 }
  else if w1.isEmpty || w2.isEmpty then { inter := 0, uni := 1 }
  else { inter := interCount w1 w2, uni := unionCount w1 w2 }

/-- `_calculate_content_similarity`: word-overlap similarity of two texts. -/
def calculateContentSimilarity (t1 t2 : String) : SimilarityRatio :=
  similarityOfSets (pySplitWs t1).dedup (pySplitWs t2).dedup

/-- `_calculate_bullet_similarity bullet1 bullet2 > 0.6` (the only use site
compares against 0.6; words are lowercased before splitting). -/
def bulletSimGt60 (b1 b2 : String) : Bool :=
  let w1 := (pySplitWs (pyLower b1)).dedup
  let w2 := (pySplitWs (pyLower b2)).dedup
  if w1.isEmpty && w2.isEmpty then true
  else if w1.isEmpty || w2.isEmpty then false
  else 5 * interCount w1 w2 > 3 * unionCount w1 w2

/-! ## Section and perspective enumerations -/

inductive SectionType where
  | CONTACT_INFO | SUMMARY | SKILLS | EDUCATION | EXPERIENCE | PROJECTS | CERTIFICATIONS
deriving DecidableEq, Repr

def SectionType.value : SectionType → String
  | .CONTACT_INFO => "contact_info"
  | .SUMMARY => "summary"
  | .SKILLS => "skills"
  | .EDUCATION => "education"
  | .EXPERIENCE => "experience"
  | .PROJECTS => "projects"
  | .CERTIFICATIONS => "certifications"

inductive AnalysisPerspective where
  | HIRING_MANAGER | TECHNICAL_LEAD | HR_RECRUITER | ATS_OPTIMIZER | INDUSTRY_EXPERT | EXECUTIVE_COACH
deriving DecidableEq, Repr

/-- `self.perspective_rotation = list(AnalysisPerspective)` (declaration order). -/
def perspectiveRotation : List AnalysisPerspective :=
  [.HIRING_MANAGER, .TECHNICAL_LEAD, .HR_RECRUITER, .ATS_OPTIMIZER, .INDUSTRY_EXPERT, .EXECUTIVE_COACH]

/-- `self.analysis_order`. -/
def analysisOrder : List SectionType :=
  [.SKILLS, .EDUCATION, .EXPERIENCE, .PROJECTS]

def maxIterations : Nat := 5

def qualityThreshold : Nat := 90

/-- `self.perspective_rotation[iteration % len(self.perspective_rotation)]`
for the 0-based loop counter `iteration`. -/
def perspectiveOf (idx : Nat) : AnalysisPerspective :=
  perspectiveRotation.getD (idx % perspectiveRotation.length) .HIRING_MANAGER

/-! ## Fabrication guard (`_verify_suggestion_quality`)

The guard collects issue dicts `{severity, issue, description, action}`;
`description` and `action` are display strings never consulted by control
flow and are elided here, except that computing the description of the
length-blowup issue divides by the original word count, which raises
`ZeroDivisionError` when the original has zero words — modelled by the
`Option` result of `verifyCollect`.

The four regex-based extraction helpers (`_detect_fabricated_metrics`,
`_detect_fabricated_achievements`, `_extract_skills_from_text`,
`_extract_course_names`) are `re.findall`-driven; they are modelled as
oracle fields of `Detectors`.  The remaining helpers are translated
concretely. -/

structure Issue where
  severity : String
  kind : String
deriving DecidableEq, Repr

structure VerificationResult where
  is_valid : Bool
  issues : List Issue
  recommendation : String
deriving DecidableEq, Repr

/-- Oracle bundle for the regex-based extraction helpers of the guard.
`fabricatedMetrics o s` is `_detect_fabricated_metrics(o, s)` (per-pattern
`findall` set differences), `fabricatedAchievements` is
`_detect_fabricated_achievements`, `extractSkills` is
`_extract_skills_from_text`, `extractCourseNames` is
`_extract_course_names`. -/
structure Detectors where
  fabricatedMetrics : String → String → List String
  fabricatedAchievements : String → String → List String
  extractSkills : String → List String
  extractCourseNames : String → List String

/-- Python `set(a) - set(b)` as a deduplicated filtered list. -/
def setDiff (a b : List String) : List String :=
  a.dedup.filter (fun x => !b.contains x)

/-- Does a stripped line start with one of `•`, `-`, `*`? -/
def startsBullet (line : String) : Bool :=
  match line.data with
  | [] => false
  | c :: _ => c = '•' || c = '-' || c = '*'

/-- `_detect_fabricated_responsibilities` (pure in the source). -/
def detectFabricatedResponsibilities (original suggested : String) : List String :=
  let ob := ((pySplitLines original).map pyStrip).filter startsBullet
  let sb := ((pySplitLines suggested).map pyStrip).filter startsBullet
  let fab := sb.filter (fun s => !(ob.any (fun o => bulletSimGt60 s o)))
  (fab.map (fun s => pyTruncate s 100)).take 3

/-- `_detect_fabricated_project_details` (set difference of extracted
skills, truncated to five entries). -/
def detectFabricatedProjectDetails (D : Detectors) (original suggested : String) : List String :=
  (setDiff (D.extractSkills suggested) (D.extractSkills original)).take 5

def skillsCategoryMarkers : List String :=
  ["▸", ":", "Languages:", "Framework", "Database", "Tools:", "Cloud"]

def paragraphPhrases : List String :=
  ["proficient in", "skilled in", "experienced in", "competent in"]

/-- Section-specific issue collection of `_verify_suggestion_quality`. -/
def sectionIssues (D : Detectors) (original suggested : String) : SectionType → List Issue
  | .SKILLS =>
    let origHasCats := skillsCategoryMarkers.any (fun m => strContains original m)
    let suggIsPara := paragraphPhrases.any (fun p => strContains (pyLower suggested) p)
    let i1 := if origHasCats && suggIsPara then [Issue.mk "critical" "structure_violation"] else []
    let fabricatedSkills := setDiff (D.extractSkills suggested) (D.extractSkills original)
    let i2 := if fabricatedSkills ≠ [] then [Issue.mk "high" "fabricated_content"] else []
    i1 ++ i2
  | .EXPERIENCE =>
    let i1 := if D.fabricatedAchievements original suggested ≠ [] then
        [Issue.mk "critical" "fabricated_achievements"] else []
    let i2 := if detectFabricatedResponsibilities original suggested ≠ [] then
        [Issue.mk "high" "fabricated_responsibilities"] else []
    i1 ++ i2
  | .EDUCATION =>
    let i1 := if strContains (pyLower suggested) "project" &&
        !(strContains (pyLower original) "project") then
        [Issue.mk "critical" "fabricated_projects"] else []
    let i2 := if (D.extractCourseNames original).any (fun course =>
        strContains (pyLower suggested) (pyLower course) &&
        strContains (pyLower suggested) "project") then
        [Issue.mk "critical" "course_to_project_conversion"] else []
    i1 ++ i2
  | .PROJECTS =>
    if detectFabricatedProjectDetails D original suggested ≠ [] then
      [Issue.mk "critical" "fabricated_project_details"] else []
  | _ => []

/-- Issue collection of `_verify_suggestion_quality`: general metric check,
section-specific checks, then the length-blowup check.  `none` models the
`ZeroDivisionError` raised while formatting the length-blowup description
(`suggested_length/original_length` with a zero-word original). -/
def verifyCollect (D : Detectors) (original suggested : String) (st : SectionType) :
    Option (List Issue) :=
  let i1 := if D.fabricatedMetrics original suggested ≠ [] then
      [Issue.mk "critical" "fabricated_metrics"] else []
  let i2 := sectionIssues D original suggested st
  let originalLength := pyWordCount original
  let suggestedLength := pyWordCount suggested
  if 2 * suggestedLength > 3 * originalLength then
    if originalLength = 0 then none
    else some (i1 ++ i2 ++ [Issue.mk "medium" "excessive_content_addition"])
  else some (i1 ++ i2)

/-- The aggregation at the end of `_verify_suggestion_quality`:
`is_valid` is `len([i for i in issues if severity in {critical, high}]) == 0`
and `recommendation` is `"reject" if any critical else "review"`. -/
def aggregateVerification (issues : List Issue) : VerificationResult :=
  { is_valid :=
      (issues.filter (fun i => i.severity == "critical" || i.severity == "high")).length == 0
    issues := issues
    recommendation :=
      if issues.any (fun i => i.severity == "critical") then "reject" else "review" }

/-- `_verify_suggestion_quality` (async in the source but free of awaits:
a pure function of its inputs and the extractor outputs). -/
def verifySuggestionQuality (D : Detectors) (original suggested : String) (st : SectionType) :
    Option VerificationResult :=
  (verifyCollect D original suggested st).map aggregateVerification

/-! ## Fast quality scorer (`_score_content_quality`)

The single LLM call is modelled as an `Option String` (the response text,
or `none` when the call raises).  The `try` block wraps both the call and
the parse, so any failure resolves to the neutral default 50.  Scores are
non-negative after the `max(1, min(100, score))` clamp, so `Nat` is
faithful. -/

def scoreContentQuality (response : Option String) : Nat :=
  match response with
  | none => 50
  | some text =>
    match firstDigitRun (pyStrip text).data with
    | none => 50
    | some ds => max 1 (min 100 (digitsToNat ds))

/-! ## Change detection (`_detect_actual_changes` and helpers)

All pure in the source.  The `normalize_content` inner function collapses
whitespace runs, removes list-marker runs together with their trailing
whitespace (`re.sub(r'[▸•\-\*]+\s*', '', ...)`), and lowercases. -/

def collapseWs : List Char → List Char
  | [] => []
  | [c] => if pyIsSpace c then [' '] else [c]
  | c :: c' :: cs =>
    if pyIsSpace c then
      if pyIsSpace c' then collapseWs (c' :: cs)
      else ' ' :: collapseWs (c' :: cs)
    else c :: collapseWs (c' :: cs)

def isMarkerChar (c : Char) : Bool :=
  c = '▸' || c = '•' || c = '-' || c = '*'

/-- `re.sub(r'[▸•\-\*]+\s*', '', s)` as a left-to-right scan: a marker run
and the whitespace following it are dropped. -/
def removeMarkersAux : Bool → List Char → List Char
  | _, [] => []
  | skipWs, c :: cs =>
    if isMarkerChar c then removeMarkersAux true cs
    else if skipWs && pyIsSpace c then removeMarkersAux true cs
    else c :: removeMarkersAux false cs

/-- `normalize_content` inside `_detect_actual_changes`. -/
def normalizeContent (content : String) : String :=
  pyLower (String.mk (removeMarkersAux false (collapseWs (pyStrip content).data)))

/-- `_has_structure_improvements`. -/
def hasStructureImprovements (original improved : String) : Bool :=
  let ob := countChar original '•' + countChar original '-' + countChar original '▸'
  let ib := countChar improved '•' + countChar improved '-' + countChar improved '▸'
  let oc := countChar original ':'
  let ic := countChar improved ':'
  ib > ob || ic > oc

def categoryKeywords : List String :=
  ["Languages:", "Framework", "Database", "Tools:", "Cloud", "Skills:"]

/-- `_has_categorization_improvements`. -/
def hasCategorizationImprovements (original improved : String) : Bool :=
  let oc := (categoryKeywords.filter (fun k => strContains (pyLower original) (pyLower k))).length
  let ic := (categoryKeywords.filter (fun k => strContains (pyLower improved) (pyLower k))).length
  ic > oc

/-- Non-empty stripped lines of a text (`[l.strip() for l in s.split('\n') if l.strip()]`). -/
def strippedLines (s : String) : List String :=
  ((pySplitLines s).map pyStrip).filter (fun l => l ≠ "")

/-- `_has_formatting_improvements`: line-count delta greater than one. -/
def hasFormattingImprovements (original improved : String) : Bool :=
  let ol := (strippedLines original).length
  let il := (strippedLines improved).length
  max ol il - min ol il > 1

structure ChangesDetected where
  has_meaningful_changes : Bool
  similarity_score : SimilarityRatio
  change_types : List String
  specific_changes : List String
  formatting_only : Bool
deriving DecidableEq, Repr

/-- `_detect_actual_changes`.  The "Added content" message lists words of
`set(improved) - set(original)`; CPython's set iteration order is
unspecified, modelled here as first-occurrence order. -/
def detectActualChanges (original improved : String) : ChangesDetected :=
  let on_ := normalizeContent original
  let in_ := normalizeContent improved
  let sim := calculateContentSimilarity on_ in_
  if sim.gtFrac 19 20 then
    { has_meaningful_changes := false, similarity_score := sim, change_types := [],
      specific_changes := ["Minor formatting adjustments only"], formatting_only := true }
  else
    let t1 := if hasStructureImprovements original improved then ["structure"] else []
    let c1 := if hasStructureImprovements original improved then
        ["Improved content organization and structure"] else []
    let t2 := if hasCategorizationImprovements original improved then ["categorization"] else []
    let c2 := if hasCategorizationImprovements original improved then
        ["Enhanced categorization and grouping"] else []
    let t3 := if hasFormattingImprovements original improved then ["formatting"] else []
    let c3 := if hasFormattingImprovements original improved then
        ["Applied professional formatting standards"] else []
    let newWords := setDiff (pySplitWs in_) (pySplitWs on_)
    let t4 := if newWords.length > 3 then ["content_addition"] else []
    let c4 := if newWords.length > 3 then
        ["Added content: " ++ strIntercalate ", " (newWords.take 5)] else []
    { has_meaningful_changes := true, similarity_score := sim,
      change_types := t1 ++ t2 ++ t3 ++ t4,
      specific_changes := c1 ++ c2 ++ c3 ++ c4, formatting_only := false }

/-! ## Formatting assessment (`_assess_formatting_needs`, pure) -/

def assessFormattingNeeds (content : String) (st : SectionType) : List String :=
  let lines := strippedLines content
  match st with
  | .SKILLS =>
    let i1 := if lines.any (fun l => (pySplitWs l).length > 8) then ["paragraph_format"] else []
    let i2 := if !strContains content ":" && lines.length > 3 then ["missing_categories"] else []
    let bulletCount := countChar content '▸' + countChar content '•' +
      countChar content '-' + countChar content '*'
    let i3 := if bulletCount < lines.length / 2 then ["missing_bullets"] else []
    i1 ++ i2 ++ i3
  | .EXPERIENCE =>
    let i1 := if countChar content '•' + countChar content '-' + countChar content '▸'
        < lines.length / 3 then ["missing_bullets"] else []
    let tailStarts := (lines.drop 1).any (fun l =>
      match l.data with
      | [] => false
      | c :: _ => c = '•' || c = '-' || c = '▸')
    let i2 := if !tailStarts then ["inconsistent_bullets"] else []
    i1 ++ i2
  | .EDUCATION =>
    if lines.any (fun l => (pySplitWs l).length > 15) then ["verbose_format"] else []
  | .PROJECTS =>
    if countChar content ':' < lines.length / 4 then ["missing_structure"] else []
  | _ => []

/-! ## Data model -/

structure JobAnalysis where
  keywords : List String
  requirements : List String
  experience_level : String
  key_technologies : List String
  priorities : List String
  soft_skills : List String
  hard_skills : List String
  industry : String
  company_size : String
  role_type : String
deriving DecidableEq, Repr

/-- `ClarificationRequest` (the `timestamp` field is dropped). -/
structure ClarificationRequest where
  section_type : SectionType
  question : String
  context : String
  original_content : String
  reason : String
deriving DecidableEq, Repr

/-- `IterationResult` (the `timestamp` field is dropped). -/
structure IterationResult where
  version : Nat
  content : String
  perspective : AnalysisPerspective
  quality_score : Nat
  strengths : List String
  weaknesses : List String
  improvement_notes : String
deriving DecidableEq, Repr

structure SectionAnalysis where
  section_type : SectionType
  original_content : String
  best_content : Option String
  iterations : List IterationResult
  final_score : Nat
  improvement_journey : String
  needs_clarification : Bool
  clarification_request : Option ClarificationRequest
deriving DecidableEq, Repr

/-- One entry of the `fabrication_risks` array returned by
`_detect_fabrication_and_clarify` (the `reason` and
`clarification_question` display fields are elided). -/
structure FabricationRiskItem where
  item : String
  risk_level : String
deriving DecidableEq, Repr

/-- The JSON analysis returned by `_detect_fabrication_and_clarify`
(`needs_user_input` entries are never consulted; kept as opaque strings). -/
structure FabricationAnalysis where
  fabrication_risks : List FabricationRiskItem
  safe_enhancements : List String
  needs_user_input : List String
deriving DecidableEq, Repr

/-- The result of `_generate_intelligent_clarification` (callers read only
`question` and `context`). -/
structure ClarificationItem where
  question : String
  context : String
deriving DecidableEq, Repr

/-- The decoded evaluation used by the loop (`strengths`, `weaknesses`,
`improvement_notes` are the only keys the loop reads). -/
structure Evaluation where
  strengths : List String
  weaknesses : List String
  improvement_notes : String
deriving DecidableEq, Repr

/-! ## External-call environment for the refinement loop

Each field models one generation-service interaction of the source.
`Except Unit` results model calls whose exceptions are observable by the
loop (`.error` = the call raised); calls that catch all of their own
exceptions and return a fallback are total functions.  Repeated calls with
identical arguments are identified (the oracle is deterministic). -/

structure LoopEnv where
  /-- The regex-based extraction oracles used by the fabrication guard. -/
  detectors : Detectors
  /-- `_detect_fabrication_and_clarify(section_type, content, job_description)`:
  catches all of its own exceptions (returning a fail-safe analysis that
  contains a high risk), hence total. -/
  detectFabrication : SectionType → String → String → FabricationAnalysis
  /-- `_generate_intelligent_clarification`: catches everything, total. -/
  intelligentClarification : SectionType → String → JobAnalysis → String → ClarificationItem
  /-- `_format_skills_section` .. `_format_generic_section`: bare LLM calls,
  may raise. -/
  formatSkills : String → Except Unit String
  formatExperience : String → Except Unit String
  formatEducation : String → Except Unit String
  formatProjects : String → Except Unit String
  formatGeneric : String → Except Unit String
  /-- `_generate_content_with_perspective(content, st, ja, perspective, iteration)`:
  bare LLM call, may raise. -/
  generatePerspective : String → SectionType → JobAnalysis → AnalysisPerspective → Nat → Except Unit String
  /-- The response text of the LLM call inside `_score_content_quality`
  (`none` = the call raised; the function itself never raises). -/
  scoreResponse : String → SectionType → JobAnalysis → Option String
  /-- `_self_evaluate_content`: the LLM call may raise (`.error`); JSON
  parse failures are already resolved to the fixed fallback inside. -/
  evaluateContent : String → SectionType → JobAnalysis → AnalysisPerspective → Except Unit Evaluation
  /-- `_refine_based_on_critique(content, weaknesses, st, ja)`: may raise. -/
  refineCritique : String → List String → SectionType → JobAnalysis → Except Unit String
  /-- The LLM call inside `_generate_content_with_clarification`
  (`original, clarification, st, ja, perspective, iteration`); the function
  catches the error and falls back, see `generateContentWithClarification`. -/
  clarifyGenerate : String → String → SectionType → JobAnalysis → AnalysisPerspective → Nat → Except Unit String

/-- Section dispatch at the end of `_ensure_proper_formatting`. -/
def formatSectionCall (env : LoopEnv) (st : SectionType) (content : String) : Except Unit String :=
  match st with
  | .SKILLS => env.formatSkills content
  | .EXPERIENCE => env.formatExperience content
  | .EDUCATION => env.formatEducation content
  | .PROJECTS => env.formatProjects content
  | _ => env.formatGeneric content

/-- `_ensure_proper_formatting`: returns the content unchanged (no LLM
call) when no formatting needs are assessed. -/
def ensureProperFormatting (env : LoopEnv) (content : String) (st : SectionType) :
    Except Unit String :=
  if (assessFormattingNeeds content st).isEmpty then .ok content
  else formatSectionCall env st content

/-- `max(iterations, key=lambda x: x.quality_score)`: first element of
maximal score (Python `max` keeps the earliest maximum). -/
def maxByScore (l : List IterationResult) : Option IterationResult :=
  l.foldl (fun best r =>
    match best with
    | none => some r
    | some b => if r.quality_score > b.quality_score then some r else some b) none

def sectionFallbackNarrative : SectionType → String
  | .SKILLS => "Skills organization reviewed and optimized."
  | .EXPERIENCE => "Experience descriptions enhanced for clarity."
  | .EDUCATION => "Educational background formatting improved."
  | .PROJECTS => "Project presentations refined."
  | _ => "Content formatting reviewed."

/-- `_generate_improvement_narrative` (async in the source but free of
awaits: pure). -/
def generateImprovementNarrative (iterations : List IterationResult) (st : SectionType)
    (originalContent : String) : String :=
  match maxByScore iterations with
  | none => "No changes applied."
  | some best =>
    if originalContent ≠ "" then
      let ca := detectActualChanges originalContent best.content
      if !ca.has_meaningful_changes then
        if ca.similarity_score.gtFrac 49 50 then "Content reviewed - no improvements needed."
        else "Minor formatting adjustments applied."
      else if ca.specific_changes ≠ [] then
        strIntercalate ". " ca.specific_changes ++ "."
      else sectionFallbackNarrative st
    else sectionFallbackNarrative st

/-- Verification penalty: critical −10, high −5, anything else −2 per
issue (`sum(10 if critical else 5 if high else 2 ...)`). -/
def penaltyOf (issues : List Issue) : Nat :=
  (issues.map (fun i =>
    if i.severity == "critical" then 10 else if i.severity == "high" then 5 else 2)).sum

/-- `{SectionType: guidance}` map used on the blocked path. -/
def sectionGuidance : SectionType → String
  | .SKILLS => "To enhance this section, please specify additional technical skills, frameworks, or tools you have used."
  | .EXPERIENCE => "To enhance this section, please provide specific achievements, metrics, team sizes, or technologies used in your roles."
  | .PROJECTS => "To enhance this section, please share project outcomes, technologies used, team collaboration details, or measurable results."
  | .EDUCATION => "To enhance this section, please mention relevant coursework, projects, achievements, or additional certifications."
  | _ => "To enhance this section, please provide additional relevant details."

/-- Mutable state of the iteration loop, plus a trace of the baseline
(first) arguments passed to `_verify_suggestion_quality`. -/
structure LoopState where
  currentContent : String
  bestContent : String
  bestScore : Nat
  iterations : List IterationResult
  baselines : List String
deriving DecidableEq, Repr

/-- Steps 7–8 of one loop iteration: append the `IterationResult` and
update the best version when the score improves. -/
def recordIteration (idx : Nat) (improved : String) (verification : VerificationResult)
    (quality : Nat) (eval : Evaluation) (s : LoopState) : LoopState :=
  let itRec : IterationResult :=
    { version := idx + 1, content := improved, perspective := perspectiveOf idx,
      quality_score := quality, strengths := eval.strengths,
      weaknesses := eval.weaknesses ++
        verification.issues.map (fun i => "Verification: " ++ i.kind),
      improvement_notes := eval.improvement_notes }
  let s := { s with iterations := s.iterations ++ [itRec] }
  if quality > s.bestScore then
    { s with bestContent := improved, bestScore := quality } else s

/-- Steps 4–10 of one loop iteration, shared by the generated-candidate and
cleaned-up-candidate paths.  Returns the new state and whether the `for`
loop continues (`false` models both `break` and a caught iteration
exception). -/
def finishIteration (env : LoopEnv) (st : SectionType) (ja : JobAnalysis) (idx : Nat)
    (improved : String) (verification : VerificationResult) (s : LoopState) :
    LoopState × Bool :=
  let primary := scoreContentQuality (env.scoreResponse improved st ja)
  let quality := if verification.issues ≠ [] then
      max 1 (primary - penaltyOf verification.issues) else primary
  match env.evaluateContent improved st ja (perspectiveOf idx) with
  | .error _ => (s, false)
  | .ok eval =>
    let s2 := recordIteration idx improved verification quality eval s
    if quality ≥ qualityThreshold then (s2, false)
    else if idx < maxIterations - 1 then
      match env.refineCritique improved eval.weaknesses st ja with
      | .error _ => (s2, false)
      | .ok refined => ({ s2 with currentContent := refined }, true)
    else (s2, true)

/-- One iteration of the improvement loop (`for iteration in range(...)`
body).  `content` is the section's original content; every guard call uses
it as the baseline. -/
def runIteration (env : LoopEnv) (content : String) (st : SectionType) (ja : JobAnalysis)
    (idx : Nat) (s : LoopState) : LoopState × Bool :=
  match env.generatePerspective s.currentContent st ja (perspectiveOf idx) (idx + 1) with
  | .error _ => (s, false)
  | .ok generated =>
    let s := { s with baselines := s.baselines ++ [content] }
    match verifySuggestionQuality env.detectors content generated st with
    | none => (s, false)
    | some verification =>
      if !verification.is_valid && verification.recommendation == "reject" then
        match ensureProperFormatting env content st with
        | .error _ => (s, false)
        | .ok cleaned =>
          let s := { s with baselines := s.baselines ++ [content] }
          match verifySuggestionQuality env.detectors content cleaned st with
          | none => (s, false)
          | some cleanupVerification =>
            let improved := if !cleanupVerification.is_valid then content else cleaned
            finishIteration env st ja idx improved verification s
      else
        finishIteration env st ja idx generated verification s

/-- The iteration loop driver (`fuel` counts remaining iterations, `idx`
is the 0-based loop counter). -/
def runIterations (env : LoopEnv) (content : String) (st : SectionType) (ja : JobAnalysis) :
    Nat → Nat → LoopState → LoopState
  | 0, _, s => s
  | fuel + 1, idx, s =>
    let r := runIteration env content st ja idx s
    if r.2 then runIterations env content st ja fuel (idx + 1) r.1 else r.1

/-- `_iterative_section_improvement`.  The result pairs the produced
`SectionAnalysis` with the trace of guard baselines; `.error` models an
exception escaping the method (caught by the per-section handler of the
session layer).  The unused `all_sections` parameter of the source is
dropped.  Display strings built from exception messages are fixed texts
here. -/
def iterativeSectionImprovement (env : LoopEnv) (jobDescription content : String)
    (st : SectionType) (ja : JobAnalysis) : Except Unit (SectionAnalysis × List String) :=
  let fa := env.detectFabrication st content jobDescription
  let criticalRisks := fa.fabrication_risks.filter (fun i => i.risk_level == "high")
  if criticalRisks.length > 0 then
    -- Blocked path: clarification request plus safe formatting only.
    let item := env.intelligentClarification st content ja jobDescription
    let request : ClarificationRequest :=
      { section_type := st, question := item.question, context := item.context,
        original_content := content,
        reason := "Fabrication prevention - user input needed for accurate enhancement" }
    match ensureProperFormatting env content st with
    | .error _ =>
      -- Except-handler at the fabrication check: conservative fallback,
      -- which re-runs the formatting call; a second failure propagates.
      match ensureProperFormatting env content st with
      | .error _ => .error ()
      | .ok conservative =>
        .ok ({ section_type := st, original_content := content,
               best_content := some conservative, iterations := [], final_score := 70,
               improvement_journey := "Applied conservative improvements due to fabrication detection error.",
               needs_clarification := false, clarification_request := none }, [])
    | .ok safeImproved =>
      let changes := detectActualChanges content safeImproved
      let sectionFeedback := if changes.has_meaningful_changes then
          "Applied safe improvements: " ++ strIntercalate ", " changes.specific_changes ++ ". "
        else "Content reviewed for formatting. "
      .ok ({ section_type := st, original_content := content,
             best_content := some safeImproved, iterations := [], final_score := 60,
             improvement_journey := sectionFeedback ++ sectionGuidance st,
             needs_clarification := true, clarification_request := some request }, [])
  else
    let s0 : LoopState :=
      { currentContent := content, bestContent := content, bestScore := 0,
        iterations := [], baselines := [] }
    let s := runIterations env content st ja maxIterations 0 s0
    let journey := generateImprovementNarrative s.iterations st content
    if s.bestScore < 80 || s.iterations.isEmpty then
      match ensureProperFormatting env content st with
      | .error _ => .error ()
      | .ok formatImproved =>
        let fc := detectActualChanges content formatImproved
        let bestC := if fc.has_meaningful_changes then formatImproved else s.bestContent
        let journey2 := if fc.has_meaningful_changes then
            strIntercalate ". " fc.specific_changes ++ "." else journey
        .ok ({ section_type := st, original_content := content,
               best_content := some bestC, iterations := s.iterations,
               final_score := s.bestScore, improvement_journey := journey2,
               needs_clarification := false, clarification_request := none }, s.baselines)
    else
      .ok ({ section_type := st, original_content := content,
             best_content := some s.bestContent, iterations := s.iterations,
             final_score := s.bestScore, improvement_journey := journey,
             needs_clarification := false, clarification_request := none }, s.baselines)

/-! ## Clarification-seeded loop
(`_generate_content_with_clarification`, `_iterative_section_improvement_with_clarification`)

This variant has no fabrication check and no verification/refine steps;
the generation call catches its own errors and falls back to appending the
user's details to the original. -/

def generateContentWithClarification (env : LoopEnv) (originalContent userClarification : String)
    (st : SectionType) (ja : JobAnalysis) (p : AnalysisPerspective) (iter : Nat) : String :=
  match env.clarifyGenerate originalContent userClarification st ja p iter with
  | .ok s => s
  | .error _ => originalContent ++ "\n\nAdditional Details: " ++ userClarification

/-- One iteration of the clarified loop (`baselines`/`currentContent` of
the state are unused here). -/
def runClarifyIteration (env : LoopEnv) (originalContent userClarification : String)
    (st : SectionType) (ja : JobAnalysis) (idx : Nat) (s : LoopState) : LoopState × Bool :=
  let improved := generateContentWithClarification env originalContent userClarification st ja
    (perspectiveOf idx) (idx + 1)
  let primary := scoreContentQuality (env.scoreResponse improved st ja)
  match env.evaluateContent improved st ja (perspectiveOf idx) with
  | .error _ => (s, false)
  | .ok eval =>
    let itRec : IterationResult :=
      { version := idx + 1, content := improved, perspective := perspectiveOf idx,
        quality_score := primary, strengths := eval.strengths,
        weaknesses := eval.weaknesses, improvement_notes := eval.improvement_notes }
    let s := { s with iterations := s.iterations ++ [itRec] }
    let s := if primary > s.bestScore then
        { s with bestContent := improved, bestScore := primary } else s
    if primary ≥ qualityThreshold then (s, false) else (s, true)

def runClarifyIterations (env : LoopEnv) (originalContent userClarification : String)
    (st : SectionType) (ja : JobAnalysis) : Nat → Nat → LoopState → LoopState
  | 0, _, s => s
  | fuel + 1, idx, s =>
    let r := runClarifyIteration env originalContent userClarification st ja idx s
    if r.2 then runClarifyIterations env originalContent userClarification st ja fuel (idx + 1) r.1 else r.1

/-- `_iterative_section_improvement_with_clarification` (total: every
failing call is caught inside).  The `enhanced_content` parameter of the
source is only logged, never used, and is dropped here. -/
def iterativeSectionImprovementWithClarification (env : LoopEnv)
    (originalContent : String) (st : SectionType) (ja : JobAnalysis)
    (userClarification : String) : SectionAnalysis :=
  let s0 : LoopState :=
    { currentContent := originalContent, bestContent := originalContent, bestScore := 0,
      iterations := [], baselines := [] }
  let s := runClarifyIterations env originalContent userClarification st ja maxIterations 0 s0
  let journey :=
    match maxByScore s.iterations with
    | some best =>
      "Applied user clarification and achieved " ++ natToString s.iterations.length ++
        " iterations. " ++ best.improvement_notes
    | none =>
      if userClarification ≠ "" then
        "Enhanced with user clarification: " ++ String.mk (userClarification.data.take 100) ++ "..."
      else "Analysis completed with clarification."
  { section_type := st, original_content := originalContent,
    best_content := some s.bestContent, iterations := s.iterations,
    final_score := s.bestScore, improvement_journey := journey,
    needs_clarification := false, clarification_request := none }

/-! ## Association-list dictionaries

Python `dict`s (insertion-ordered, unique keys): value update keeps the
position, a new key is appended at the end (modelled by in-place cons
order), `del` removes the single matching entry. -/

def dictLookup {α : Type} : List (String × α) → String → Option α
  | [], _ => none
  | (k', v) :: rest, k => if k' = k then some v else dictLookup rest k

def dictContains {α : Type} (d : List (String × α)) (k : String) : Bool :=
  (dictLookup d k).isSome

def dictInsert {α : Type} : List (String × α) → String → α → List (String × α)
  | [], k, v => [(k, v)]
  | (k', v') :: rest, k, v =>
    if k' = k then (k, v) :: rest else (k', v') :: dictInsert rest k v

def dictErase {α : Type} : List (String × α) → String → List (String × α)
  | [], _ => []
  | (k', v') :: rest, k => if k' = k then rest else (k', v') :: dictErase rest k

/-! ## Session state machine -/

/-- One entry of `session["pending_clarifications"]`. -/
structure PendingClarification where
  section_type : String
  question : String
  context : String
  reason : String
  original_content : String
deriving DecidableEq, Repr

/-- The `clarification_request` sub-dict of API payloads. -/
structure ClarificationInfo where
  question : String
  context : String
  reason : String
deriving DecidableEq, Repr

/-- One entry of `completed_analyses` (the dict representation built for
the API by `_process_sections_with_clarification_support`). -/
structure CompletedAnalysis where
  section_type : String
  original_content : String
  improved_content : Option String
  score : Nat
  feedback : String
  iteration_count : Nat
  needs_clarification : Bool
  clarification_request : Option ClarificationInfo
deriving DecidableEq, Repr

/-- `self.sessions[session_id]`.  Parsed sections are modelled as
`key ↦ content` (the source stores `{type, content, original_type}` dicts
but only ever reads `content`).  `created_at` is dropped.
`pending_clarification_legacy` is the singular `pending_clarification`
slot, initialised to `None` and never written in the current flow. -/
structure Session where
  resume_text : String
  job_description : String
  sections : List (String × String)
  job_analysis : JobAnalysis
  section_analyses : List (String × SectionAnalysis)
  accepted_changes : List (String × Bool)
  current_section_index : Nat
  needs_clarification : Bool
  pending_clarifications : List (String × PendingClarification)
  pending_clarification_legacy : Option PendingClarification
deriving DecidableEq, Repr

/-- Process-wide mutable state of `IterativeResumeAgent`: the session map
and the shared `self.original_job_description` field. -/
structure AgentState where
  sessions : List (String × Session)
  original_job_description : String
deriving DecidableEq, Repr

/-- Environment of the session layer: the loop's oracles plus
`_parse_resume_sections` (catches everything; `[]` = parse failure) and
`_analyze_job_description_comprehensive` (catches everything, total). -/
structure AgentEnv where
  loop : LoopEnv
  parseSections : String → List (String × String)
  analyzeJob : String → JobAnalysis

def completedEntryNormal (a : SectionAnalysis) : CompletedAnalysis :=
  { section_type := a.section_type.value, original_content := a.original_content,
    improved_content := a.best_content, score := a.final_score,
    feedback := a.improvement_journey, iteration_count := a.iterations.length,
    needs_clarification := false, clarification_request := none }

def completedEntryBlocked (a : SectionAnalysis) (req : ClarificationRequest) : CompletedAnalysis :=
  { section_type := a.section_type.value, original_content := a.original_content,
    improved_content := a.best_content, score := a.final_score,
    feedback := a.improvement_journey, iteration_count := a.iterations.length,
    needs_clarification := true,
    clarification_request := some ⟨req.question, req.context, req.reason⟩ }

/-- The per-section body of `_process_sections_with_clarification_support`,
folded over the analysis order.  Returns the accumulated
`(completed_analyses, pending_clarifications, sections_needing_clarification)`
plus the session (whose `section_analyses` map collects the
`SectionAnalysis` objects).  The intermediate `current_section_index`
writes are overwritten at the end of the caller and not tracked. -/
def processSectionsAux (env : LoopEnv) (jobDescription : String) (ja : JobAnalysis)
    (parsed : List (String × String)) :
    List SectionType → Session →
    (List (String × CompletedAnalysis) × List (String × PendingClarification) × List String) × Session
  | [], session => (([], [], []), session)
  | t :: rest, session =>
    let key := t.value
    match dictLookup parsed key with
    | none => processSectionsAux env jobDescription ja parsed rest session
    | some content =>
      if pyStrip content = "" then processSectionsAux env jobDescription ja parsed rest session
      else
        match iterativeSectionImprovement env jobDescription content t ja with
        | .error _ =>
          -- Per-section exception handler: degraded fallback analysis.
          let fallback : SectionAnalysis :=
            { section_type := t, original_content := content, best_content := some content,
              iterations := [], final_score := 50,
              improvement_journey := "Analysis temporarily unavailable.",
              needs_clarification := false, clarification_request := none }
          let ca : CompletedAnalysis :=
            { section_type := key, original_content := content, improved_content := some content,
              score := 50, feedback := "Analysis temporarily unavailable.",
              iteration_count := 0, needs_clarification := false, clarification_request := none }
          let session := { session with
            section_analyses := dictInsert session.section_analyses key fallback }
          let r := processSectionsAux env jobDescription ja parsed rest session
          (((key, ca) :: r.1.1, r.1.2.1, r.1.2.2), r.2)
        | .ok (analysis, _) =>
          if analysis.needs_clarification then
            match analysis.clarification_request with
            | some req =>
              let pc : PendingClarification :=
                { section_type := key, question := req.question, context := req.context,
                  reason := req.reason, original_content := req.original_content }
              let session := { session with
                section_analyses := dictInsert session.section_analyses key analysis }
              let r := processSectionsAux env jobDescription ja parsed rest session
              (((key, completedEntryBlocked analysis req) :: r.1.1,
                (key, pc) :: r.1.2.1, key :: r.1.2.2), r.2)
            | none =>
              let session := { session with
                section_analyses := dictInsert session.section_analyses key analysis }
              let r := processSectionsAux env jobDescription ja parsed rest session
              (((key, completedEntryNormal analysis) :: r.1.1, r.1.2.1, r.1.2.2), r.2)
          else
            let session := { session with
              section_analyses := dictInsert session.section_analyses key analysis }
            let r := processSectionsAux env jobDescription ja parsed rest session
            (((key, completedEntryNormal analysis) :: r.1.1, r.1.2.1, r.1.2.2), r.2)

structure ProcessResult where
  completed_analyses : List (String × CompletedAnalysis)
  needs_clarification : Bool
  pending_clarifications : List (String × PendingClarification)
  sections_needing_clarification : List String
  current_section : String
  progress : String
deriving DecidableEq, Repr

/-- `_process_sections_with_clarification_support`. -/
def processSections (env : LoopEnv) (jobDescription : String)
    (parsed : List (String × String)) (ja : JobAnalysis) (session : Session) :
    ProcessResult × Session :=
  let r := processSectionsAux env jobDescription ja parsed analysisOrder session
  let pending := r.1.2.1
  let hasClar : Bool := pending.length > 0
  let session2 := { r.2 with
    needs_clarification := hasClar
    pending_clarifications := pending
    current_section_index := analysisOrder.length }
  let progress := if hasClar then
      "Analysis complete - " ++ natToString r.1.2.2.length ++ " section(s) need clarification"
    else natToString analysisOrder.length ++ "/" ++ natToString analysisOrder.length ++
      " - All sections completed"
  ({ completed_analyses := r.1.1, needs_clarification := hasClar,
     pending_clarifications := pending, sections_needing_clarification := r.1.2.2,
     current_section := "completed", progress := progress }, session2)

structure StartResult where
  success : Bool
  session_id : Option String
  sections : List (String × String)
  analysis_order : List String
  section_analyses : List (String × CompletedAnalysis)
  needs_clarification : Bool
  pending_clarifications : List (String × PendingClarification)
  sections_needing_clarification : List String
  current_section : String
  progress : String
deriving DecidableEq, Repr

def StartResult.failure : StartResult :=
  { success := false, session_id := none, sections := [], analysis_order := [],
    section_analyses := [], needs_clarification := false, pending_clarifications := [],
    sections_needing_clarification := [], current_section := "", progress := "" }

/-- `start_analysis`.  The fresh `uuid4` session id is supplied by the
caller.  `self.original_job_description` is overwritten before anything
else; on parse failure the error dict is returned with no session stored.
The source stores the session before running the section loop and mutates
it in place; at operation granularity this is equivalent to the single
final write modelled here. -/
def startAnalysis (env : AgentEnv) (sessionId resumeText jobDescription : String)
    (st : AgentState) : StartResult × AgentState :=
  let st1 := { st with original_job_description := jobDescription }
  let parsed := env.parseSections resumeText
  if parsed.isEmpty then (StartResult.failure, st1)
  else
    let ja := env.analyzeJob jobDescription
    let session0 : Session :=
      { resume_text := resumeText, job_description := jobDescription, sections := parsed,
        job_analysis := ja, section_analyses := [], accepted_changes := [],
        current_section_index := 0, needs_clarification := false,
        pending_clarifications := [], pending_clarification_legacy := none }
    let pr := processSections env.loop jobDescription parsed ja session0
    ({ success := true, session_id := some sessionId, sections := parsed,
       analysis_order := analysisOrder.map SectionType.value,
       section_analyses := pr.1.completed_analyses,
       needs_clarification := pr.1.needs_clarification,
       pending_clarifications := pr.1.pending_clarifications,
       sections_needing_clarification := pr.1.sections_needing_clarification,
       current_section := pr.1.current_section, progress := pr.1.progress },
     { st1 with sessions := dictInsert st1.sessions sessionId pr.2 })

structure ClarifyAnalysisOut where
  section_type : String
  original_content : String
  improved_content : Option String
  score : Nat
  feedback : String
  iteration_count : Nat
deriving DecidableEq, Repr

structure ClarifyResult where
  success : Bool
  analysis : Option ClarifyAnalysisOut
  remaining_clarifications : List String
  needs_more_clarification : Bool
  clarifications_completed : Bool
deriving DecidableEq, Repr

def ClarifyResult.failure : ClarifyResult :=
  { success := false, analysis := none, remaining_clarifications := [],
    needs_more_clarification := false, clarifications_completed := false }

def allSectionTypes : List SectionType :=
  [.CONTACT_INFO, .SUMMARY, .SKILLS, .EDUCATION, .EXPERIENCE, .PROJECTS, .CERTIFICATIONS]

/-- `next((st for st in SectionType if st.value == section_type), EXPERIENCE)`. -/
def sectionTypeFromValue (v : String) : SectionType :=
  (allSectionTypes.find? (fun t => t.value == v)).getD .EXPERIENCE

/-- `provide_clarification`. -/
def provideClarification (env : AgentEnv) (sessionId sectionType userResponse : String)
    (st : AgentState) : ClarifyResult × AgentState :=
  match dictLookup st.sessions sessionId with
  | none => (ClarifyResult.failure, st)
  | some session =>
    match dictLookup session.pending_clarifications sectionType with
    | none => (ClarifyResult.failure, st)
    | some pc =>
      let originalContent := pc.original_content
      let tEnum := sectionTypeFromValue sectionType
      let analysis := iterativeSectionImprovementWithClarification env.loop
        originalContent tEnum session.job_analysis userResponse
      let pending2 := dictErase session.pending_clarifications sectionType
      let session2 := { session with
        section_analyses := dictInsert session.section_analyses sectionType analysis,
        pending_clarifications := pending2,
        needs_clarification := pending2.length > 0 }
      let out : ClarifyAnalysisOut :=
        { section_type := analysis.section_type.value,
          original_content := analysis.original_content,
          improved_content := analysis.best_content, score := analysis.final_score,
          feedback := analysis.improvement_journey,
          iteration_count := analysis.iterations.length }
      ({ success := true, analysis := some out,
         remaining_clarifications := pending2.map Prod.fst,
         needs_more_clarification := pending2.length > 0,
         clarifications_completed := pending2.length = 0 },
       { st with sessions := dictInsert st.sessions sessionId session2 })

structure AcceptResult where
  success : Bool
  message : String
  analysis_continued : Bool
  clarification_cleared : Bool
deriving DecidableEq, Repr

/-- `accept_section_changes`.  The `return` after the
`section_type in section_analyses` block executes unconditionally, so the
legacy `pending_clarification` continuation below it is dead code and is
not modelled. -/
def acceptSectionChanges (sessionId sectionType : String) (accepted : Bool)
    (st : AgentState) : AcceptResult × AgentState :=
  match dictLookup st.sessions sessionId with
  | none =>
    ({ success := false, message := "Session not found", analysis_continued := false,
       clarification_cleared := false }, st)
  | some session =>
    let session := { session with
      accepted_changes := dictInsert session.accepted_changes sectionType accepted }
    let session :=
      match dictLookup session.section_analyses sectionType with
      | some analysis =>
        if analysis.needs_clarification && accepted then
          let analysis2 := { analysis with
            needs_clarification := false, clarification_request := none }
          { session with
            section_analyses := dictInsert session.section_analyses sectionType analysis2,
            pending_clarifications := dictErase session.pending_clarifications sectionType }
        else session
      | none => session
    ({ success := true, message := "Safe changes accepted for " ++ sectionType,
       analysis_continued := false, clarification_cleared := true },
     { st with sessions := dictInsert st.sessions sessionId session })

/-- Python truthiness of `analysis.best_content and analysis.best_content.strip()`. -/
def bestHasContent : Option String → Bool
  | none => false
  | some s => pyStrip s ≠ ""

/-- `section_type.upper().replace('_', ' ')`. -/
def upperTitle (k : String) : String :=
  String.mk (k.data.map (fun c => if c = '_' then ' ' else c.toUpper))

/-- The per-section body of `generate_final_resume`: decision-based content
selection, skipping sections whose selected content is empty. -/
def finalBlocks (acceptedChanges : List (String × Bool)) :
    List (String × SectionAnalysis) → List String
  | [] => []
  | (k, a) :: rest =>
    let content :=
      match dictLookup acceptedChanges k with
      | some true =>
        if bestHasContent a.best_content then a.best_content.getD "" else a.original_content
      | some false => a.original_content
      | none =>
        if bestHasContent a.best_content && !a.needs_clarification then a.best_content.getD ""
        else a.original_content
    if content = "" then finalBlocks acceptedChanges rest
    else ("=== " ++ upperTitle k ++ " ===\n" ++ content) :: finalBlocks acceptedChanges rest

structure FinalResult where
  success : Bool
  final_resume : Option String
  sections : List String
deriving DecidableEq, Repr

/-- `generate_final_resume` (read-only on the state). -/
def generateFinalResume (st : AgentState) (sessionId : String) : FinalResult :=
  match dictLookup st.sessions sessionId with
  | none => { success := false, final_resume := none, sections := [] }
  | some session =>
    { success := true,
      final_resume := some (strIntercalate "\n\n"
        (finalBlocks session.accepted_changes session.section_analyses)),
      sections := session.section_analyses.map Prod.fst }

structure StatusResult where
  success : Bool
  session_id : Option String
  current_phase : String
  sections_analyzed : Nat
  pending_count : Nat
deriving DecidableEq, Repr

/-- `get_session_status` (the source reports the literal `0` for
`pending_clarifications`). -/
def getSessionStatus (st : AgentState) (sessionId : String) : StatusResult :=
  match dictLookup st.sessions sessionId with
  | none =>
    { success := false, session_id := none, current_phase := "", sections_analyzed := 0,
      pending_count := 0 }
  | some session =>
    { success := true, session_id := some sessionId, current_phase := "completed",
      sections_analyzed := session.section_analyses.length, pending_count := 0 }

structure SectionOut where
  section_type : String
  original_content : String
  improved_content : Option String
  score : Nat
  feedback : String
  iteration_count : Nat
  needs_clarification : Bool
  clarification : Option ClarificationInfo
deriving DecidableEq, Repr

structure AnalyzeSectionResult where
  success : Bool
  analysis : Option SectionOut
deriving DecidableEq, Repr

/-- `analyze_section` (read-only on the state). -/
def analyzeSection (st : AgentState) (sessionId sectionType : String) : AnalyzeSectionResult :=
  match dictLookup st.sessions sessionId with
  | none => { success := false, analysis := none }
  | some session =>
    match dictLookup session.section_analyses sectionType with
    | some a =>
      let payload : SectionOut :=
        { section_type := a.section_type.value, original_content := a.original_content,
          improved_content := a.best_content, score := a.final_score,
          feedback := a.improvement_journey, iteration_count := a.iterations.length,
          needs_clarification := a.needs_clarification,
          clarification := a.clarification_request.map (fun r => ⟨r.question, r.context, r.reason⟩) }
      { success := true, analysis := some payload }
    | none =>
      match session.pending_clarification_legacy with
      | some pc =>
        if pc.section_type = sectionType then
          let payload : SectionOut :=
            { section_type := sectionType, original_content := pc.original_content,
              improved_content := none, score := 0,
              feedback := "Waiting for user clarification", iteration_count := 0,
              needs_clarification := true,
              clarification := some ⟨pc.question, pc.context, pc.reason⟩ }
          { success := true, analysis := some payload }
        else { success := false, analysis := none }
      | none => { success := false, analysis := none }

/-! ## Session operations as a step function -/

inductive SessionOp where
  | startOp (resumeText jobDescription : String)
  | clarifyOp (sectionType userResponse : String)
  | acceptOp (sectionType : String) (accepted : Bool)
  | finalOp
  | statusOp
  | sectionQueryOp (sectionType : String)
deriving DecidableEq, Repr

inductive OpOutput where
  | startOut (r : StartResult)
  | clarifyOut (r : ClarifyResult)
  | acceptOut (r : AcceptResult)
  | finalOut (r : FinalResult)
  | statusOut (r : StatusResult)
  | sectionQueryOut (r : AnalyzeSectionResult)
deriving DecidableEq, Repr

/-- One session-API operation applied to the agent state.  For `startOp`
the id is the freshly generated session id. -/
def stepOp (env : AgentEnv) (sid : String) (op : SessionOp) (st : AgentState) :
    OpOutput × AgentState :=
  match op with
  | .startOp resumeText jobDescription =>
    (.startOut (startAnalysis env sid resumeText jobDescription st).1,
     (startAnalysis env sid resumeText jobDescription st).2)
  | .clarifyOp sectionType userResponse =>
    (.clarifyOut (provideClarification env sid sectionType userResponse st).1,
     (provideClarification env sid sectionType userResponse st).2)
  | .acceptOp sectionType accepted =>
    (.acceptOut (acceptSectionChanges sid sectionType accepted st).1,
     (acceptSectionChanges sid sectionType accepted st).2)
  | .finalOp => (.finalOut (generateFinalResume st sid), st)
  | .statusOp => (.statusOut (getSessionStatus st sid), st)
  | .sectionQueryOp sectionType => (.sectionQueryOut (analyzeSection st sid sectionType), st)

/-! ## Concrete instantiations used by witnesses and counterexamples -/

/-- Extractor oracle returning empty lists everywhere.  Faithful to the
source extractors on the inputs where it is used below: for identical
`(original, suggested)` pairs every per-pattern `findall` set difference is
empty, for digit-free texts `_detect_fabricated_metrics` finds nothing, and
the sections used (`summary`) consult neither skills nor course names. -/
def trivialDetectors : Detectors :=
  { fabricatedMetrics := fun _ _ => []
    fabricatedAchievements := fun _ _ => []
    extractSkills := fun _ => []
    extractCourseNames := fun _ => [] }

def emptyJobAnalysis : JobAnalysis :=
  { keywords := [], requirements := [], experience_level := "", key_technologies := [],
    priorities := [], soft_skills := [], hard_skills := [], industry := "",
    company_size := "", role_type := "" }

/-- A benign environment: no fabrication risks, generation returns
"Python", the scorer's response is "95" (≥ threshold, so a single
iteration converges). -/
def convergeEnv : LoopEnv :=
  { detectors := trivialDetectors
    detectFabrication := fun _ _ _ =>
      { fabrication_risks := [], safe_enhancements := [], needs_user_input := [] }
    intelligentClarification := fun _ _ _ _ => { question := "q", context := "c" }
    formatSkills := fun s => .ok s
    formatExperience := fun s => .ok s
    formatEducation := fun s => .ok s
    formatProjects := fun s => .ok s
    formatGeneric := fun s => .ok s
    generatePerspective := fun _ _ _ _ _ => .ok "Python"
    scoreResponse := fun _ _ _ => some "95"
    evaluateContent := fun _ _ _ _ => .ok { strengths := [], weaknesses := [], improvement_notes := "" }
    refineCritique := fun c _ _ _ => .ok c
    clarifyGenerate := fun o c _ _ _ _ => .ok (o ++ " " ++ c) }

/-- Like `convergeEnv` but the pre-iteration fabrication analysis reports
one high risk for every section. -/
def blockedEnv : LoopEnv :=
  { convergeEnv with detectFabrication := fun _ _ _ =>
      { fabrication_risks := [{ item := "metric", risk_level := "high" }],
        safe_enhancements := [], needs_user_input := [] } }

def agentEnvConverge : AgentEnv :=
  { loop := convergeEnv
    parseSections := fun _ => [("skills", "Python")]
    analyzeJob := fun _ => emptyJobAnalysis }

def agentEnvBlocked : AgentEnv :=
  { loop := blockedEnv
    parseSections := fun _ => [("skills", "Python, Java"), ("experience", "Built apps at Acme")]
    analyzeJob := fun _ => emptyJobAnalysis }

/-- A session holding one pending clarification for `skills`, used to
exercise `provide_clarification` and the final-assembly rules. -/
def pendingSkills : PendingClarification :=
  { section_type := "skills", question := "q", context := "c", reason := "r",
    original_content := "Python" }

def sessionWithPending : Session :=
  { resume_text := "r", job_description := "j", sections := [("skills", "Python")],
    job_analysis := emptyJobAnalysis, section_analyses := [], accepted_changes := [],
    current_section_index := 4, needs_clarification := true,
    pending_clarifications := [("skills", pendingSkills)],
    pending_clarification_legacy := none }

def stateWithPending : AgentState :=
  { sessions := [("a", sessionWithPending)], original_job_description := "j" }

/-- The analysis produced by `iterativeSectionImprovement convergeEnv "jd"
"Python and Java" .SUMMARY emptyJobAnalysis` (one converging iteration). -/
def sampleIteration : IterationResult :=
  { version := 1, content := "Python", perspective := .HIRING_MANAGER,
    quality_score := 95, strengths := [], weaknesses := [], improvement_notes := "" }

def sampleAnalysis : SectionAnalysis :=
  { section_type := .SUMMARY, original_content := "Python and Java",
    best_content := some "Python", iterations := [sampleIteration],
    final_score := 95, improvement_journey := "Content formatting reviewed.",
    needs_clarification := false, clarification_request := none }

/-- Round-robin invariant of a recorded iteration: its 1-based `version`
is positive and its perspective sits at index `(version - 1) mod len` of
the rotation. -/
def perspectiveInv (r : IterationResult) : Prop :=
  1 ≤ r.version ∧
  r.perspective =
    perspectiveRotation.getD ((r.version - 1) % perspectiveRotation.length) .HIRING_MANAGER

/-- Final-assembly selection rule, written from the (amended) spec's
wording: `bestContent` if accepted (falling back to `originalContent` when
`bestContent` is blank); `originalContent` if rejected; with no decision,
`originalContent` while the section still needs clarification, else
`bestContent` (with the same blank fallback). -/
def finalSelectionSpec (decision : Option Bool) (a : SectionAnalysis) : String :=
  match decision with
  | some true =>
    if bestHasContent a.best_content then a.best_content.getD "" else a.original_content
  | some false => a.original_content
  | none =>
    if a.needs_clarification then a.original_content
    else if bestHasContent a.best_content then a.best_content.getD "" else a.original_content

/-- Spec-side final assembly: one block per analyzed section whose
selected content is non-empty. -/
def finalBlocksSpec (acceptedChanges : List (String × Bool))
    (l : List (String × SectionAnalysis)) : List String :=
  l.filterMap (fun p =>
    let c := finalSelectionSpec (dictLookup acceptedChanges p.1) p.2
    if c = "" then none else some ("=== " ++ upperTitle p.1 ++ " ===\n" ++ c))

/-- An analysis whose best content is the empty string (reachable when a
generation call returns blank output with a positive score). -/
def blankBestAnalysis : SectionAnalysis :=
  { section_type := .SKILLS, original_content := "Python and Java", best_content := some "",
    iterations := [], final_score := 50, improvement_journey := "",
    needs_clarification := false, clarification_request := none }

def sessionBlankBest : Session :=
  { resume_text := "r", job_description := "j", sections := [("skills", "Python and Java")],
    job_analysis := emptyJobAnalysis,
    section_analyses := [("skills", blankBestAnalysis)],
    accepted_changes := [("skills", true)], current_section_index := 4,
    needs_clarification := false, pending_clarifications := [],
    pending_clarification_legacy := none }

def stateBlankBest : AgentState :=
  { sessions := [("s", sessionBlankBest)], original_job_description := "j" }

/-! # Theorems -/

/-- C1 (counterexample).  The claim asserts `recommendation = "accept"`
when the issue list is empty; on the concrete pair
`("Built apps.", "Built apps.")` (identical texts, so every extractor
set-difference is empty) the guard returns an empty issue list with
`recommendation = "review"`, never `"accept"`. -/
theorem guard_accept_counterexample_C1 :
    verifySuggestionQuality trivialDetectors "Built apps." "Built apps." .SUMMARY =
      some { is_valid := true, issues := [], recommendation := "review" } ∧
    "review" ≠ "accept" := by
  exact ⟨rfl, by decide⟩

/-- C1 (amended).  For every detector oracle, every pair of texts and
every section kind on which the guard returns a result: `isValid` holds
exactly when no issue has severity critical or high, and the
recommendation is `"reject"` when a critical issue exists and `"review"`
otherwise — also when the issue list is empty; `"accept"` is never
returned. -/
theorem guard_aggregation_C1 (D : Detectors) (original suggested : String)
    (st : SectionType) (r : VerificationResult)
    (h : verifySuggestionQuality D original suggested st = some r) :
    (r.is_valid = true ↔ ∀ i ∈ r.issues, i.severity ≠ "critical" ∧ i.severity ≠ "high") ∧
    r.recommendation =
      (if r.issues.any (fun i => i.severity == "critical") then "reject" else "review") ∧
    r.recommendation ≠ "accept" := by
  unfold verifySuggestionQuality at h
  cases hc : verifyCollect D original suggested st with
  | none => rw [hc] at h; simp at h
  | some issues =>
    rw [hc] at h
    simp only [Option.map_some', Option.some.injEq] at h
    subst h
    unfold aggregateVerification
    refine ⟨?_, ?_, ?_⟩
    · simp only [beq_iff_eq, List.length_eq_zero, List.filter_eq_nil_iff, Bool.or_eq_true,
        not_or]
    · rfl
    · by_cases hcrit : issues.any (fun i => i.severity == "critical") = true
      · simp only [hcrit, if_true]; decide
      · simp only [Bool.not_eq_true] at hcrit
        simp only [hcrit, Bool.false_eq_true, if_false]; decide

/-- C1 witness for the amended theorem, at the concrete instance of the
counterexample pair. -/
theorem guard_aggregation_C1_witness :
    (({ is_valid := true, issues := [], recommendation := "review" } :
        VerificationResult).is_valid = true ↔
      ∀ i ∈ ({ is_valid := true, issues := [], recommendation := "review" } :
        VerificationResult).issues, i.severity ≠ "critical" ∧ i.severity ≠ "high") ∧
    ({ is_valid := true, issues := [], recommendation := "review" } :
        VerificationResult).recommendation =
      (if ({ is_valid := true, issues := [], recommendation := "review" } :
        VerificationResult).issues.any (fun i => i.severity == "critical")
        then "reject" else "review") ∧
    ({ is_valid := true, issues := [], recommendation := "review" } :
        VerificationResult).recommendation ≠ "accept" :=
  guard_aggregation_C1 trivialDetectors "Built apps." "Built apps." .SUMMARY
    { is_valid := true, issues := [], recommendation := "review" } rfl

/-- C2 (code bug).  On a zero-word original and a non-empty candidate the
length-blowup branch fires and the guard raises `ZeroDivisionError`
(modelled by `none`) while formatting the issue description, instead of
returning a result with a medium `excessive_content_addition` issue. -/
theorem guard_zero_word_crash_C2 :
    verifySuggestionQuality trivialDetectors "" "word" .SUMMARY = none := rfl

/-- C3.  The fast scorer always returns a value in `[1, 100]`; a failed
call (`none` response) and an unparsable response (no digit run) both
yield the neutral default 50, and no error propagates (the function is
total by construction). -/
theorem score_fast_bounds_C3 :
    (∀ resp, 1 ≤ scoreContentQuality resp ∧ scoreContentQuality resp ≤ 100) ∧
    scoreContentQuality none = 50 ∧
    (∀ s, firstDigitRun (pyStrip s).data = none → scoreContentQuality (some s) = 50) := by
  refine ⟨?_, rfl, ?_⟩
  · intro resp
    cases resp with
    | none => exact ⟨by decide, by decide⟩
    | some text =>
      simp only [scoreContentQuality]
      cases hd : firstDigitRun (pyStrip text).data with
      | none => exact ⟨by decide, by decide⟩
      | some ds =>
        exact ⟨Nat.le_max_left 1 _, Nat.max_le.mpr ⟨by decide, Nat.min_le_left 100 _⟩⟩
  · intro s hs
    simp only [scoreContentQuality, hs]

/-- C3 witness: a parsable response is clamped into range, an unparsable
one defaults to 50. -/
theorem score_fast_bounds_C3_witness :
    (1 ≤ scoreContentQuality (some "Score: 87") ∧
      scoreContentQuality (some "Score: 87") ≤ 100) ∧
    scoreContentQuality (some "no digits here") = 50 :=
  ⟨score_fast_bounds_C3.1 (some "Score: 87"),
   score_fast_bounds_C3.2.2 "no digits here" (by decide)⟩

/-! ## Dictionary lemmas -/

theorem dictLookup_insert_self {α : Type} (d : List (String × α)) (k : String) (v : α) :
    dictLookup (dictInsert d k v) k = some v := by
  induction d with
  | nil => simp [dictInsert, dictLookup]
  | cons hd tl ih =>
    obtain ⟨k', v'⟩ := hd
    by_cases h : k' = k
    · simp [dictInsert, dictLookup, h]
    · simp [dictInsert, dictLookup, h, ih]

theorem dictLookup_insert_ne {α : Type} (d : List (String × α)) (k k' : String) (v : α)
    (h : k ≠ k') : dictLookup (dictInsert d k v) k' = dictLookup d k' := by
  induction d with
  | nil => simp [dictInsert, dictLookup, h]
  | cons hd tl ih =>
    obtain ⟨k0, v0⟩ := hd
    by_cases h0 : k0 = k
    · subst h0
      simp [dictInsert, dictLookup, h]
    · simp [dictInsert, dictLookup, h0, ih]

/-! ## Loop-state invariants

The loop preserves two facts: every recorded guard baseline is the
section's original content, and every recorded iteration satisfies the
round-robin perspective invariant. -/

theorem recordIteration_baselines (idx : Nat) (improved : String) (v : VerificationResult)
    (q : Nat) (eval : Evaluation) (s : LoopState) :
    (recordIteration idx improved v q eval s).baselines = s.baselines := by
  unfold recordIteration
  dsimp only
  split <;> rfl

theorem recordIteration_iterations (idx : Nat) (improved : String) (v : VerificationResult)
    (q : Nat) (eval : Evaluation) (s : LoopState) :
    (recordIteration idx improved v q eval s).iterations = s.iterations ++
      [{ version := idx + 1, content := improved, perspective := perspectiveOf idx,
         quality_score := q, strengths := eval.strengths,
         weaknesses := eval.weaknesses ++ v.issues.map (fun i => "Verification: " ++ i.kind),
         improvement_notes := eval.improvement_notes }] := by
  unfold recordIteration
  dsimp only
  split <;> rfl

theorem finishIteration_baselines (env : LoopEnv) (st : SectionType) (ja : JobAnalysis)
    (idx : Nat) (improved : String) (v : VerificationResult) (s : LoopState) :
    (finishIteration env st ja idx improved v s).1.baselines = s.baselines := by
  unfold finishIteration
  cases env.evaluateContent improved st ja (perspectiveOf idx) with
  | error e => rfl
  | ok eval =>
    dsimp only
    repeat' split
    all_goals exact recordIteration_baselines ..

theorem finishIteration_iterations (env : LoopEnv) (st : SectionType) (ja : JobAnalysis)
    (idx : Nat) (improved : String) (v : VerificationResult) (s : LoopState)
    (hi : ∀ r ∈ s.iterations, perspectiveInv r) :
    ∀ r ∈ (finishIteration env st ja idx improved v s).1.iterations, perspectiveInv r := by
  have hnew : ∀ (q : Nat) (eval : Evaluation) (r : IterationResult),
      r ∈ (recordIteration idx improved v q eval s).iterations → perspectiveInv r := by
    intro q eval r hr
    rw [recordIteration_iterations] at hr
    rcases List.mem_append.mp hr with h | h
    · exact hi r h
    · rcases List.mem_singleton.mp h with rfl
      exact ⟨Nat.succ_le_succ (Nat.zero_le idx), by simp [perspectiveOf]⟩
  unfold finishIteration
  cases env.evaluateContent improved st ja (perspectiveOf idx) with
  | error e => exact hi
  | ok eval =>
    dsimp only
    repeat' split
    all_goals exact hnew _ _

theorem runIteration_state (env : LoopEnv) (content : String) (st : SectionType)
    (ja : JobAnalysis) (idx : Nat) (s : LoopState)
    (hb : ∀ x ∈ s.baselines, x = content) (hi : ∀ r ∈ s.iterations, perspectiveInv r) :
    (∀ x ∈ (runIteration env content st ja idx s).1.baselines, x = content) ∧
    (∀ r ∈ (runIteration env content st ja idx s).1.iterations, perspectiveInv r) := by
  have hb1 : ∀ x ∈ s.baselines ++ [content], x = content := by
    intro x hx
    rcases List.mem_append.mp hx with h | h
    · exact hb x h
    · exact List.mem_singleton.mp h
  have hb2 : ∀ x ∈ (s.baselines ++ [content]) ++ [content], x = content := by
    intro x hx
    rcases List.mem_append.mp hx with h | h
    · exact hb1 x h
    · exact List.mem_singleton.mp h
  unfold runIteration
  dsimp only
  repeat' split
  all_goals first
    | exact ⟨hb, hi⟩
    | exact ⟨hb1, hi⟩
    | exact ⟨hb2, hi⟩
    | exact ⟨by rw [finishIteration_baselines]; exact hb1,
             finishIteration_iterations _ _ _ _ _ _ _ hi⟩
    | exact ⟨by rw [finishIteration_baselines]; exact hb2,
             finishIteration_iterations _ _ _ _ _ _ _ hi⟩

theorem runIterations_state (env : LoopEnv) (content : String) (st : SectionType)
    (ja : JobAnalysis) :
    ∀ (fuel idx : Nat) (s : LoopState),
      (∀ x ∈ s.baselines, x = content) → (∀ r ∈ s.iterations, perspectiveInv r) →
      (∀ x ∈ (runIterations env content st ja fuel idx s).baselines, x = content) ∧
      (∀ r ∈ (runIterations env content st ja fuel idx s).iterations, perspectiveInv r) := by
  intro fuel
  induction fuel with
  | zero => intro idx s hb hi; exact ⟨hb, hi⟩
  | succ n ih =>
    intro idx s hb hi
    unfold runIterations
    dsimp only
    split
    · exact ih (idx + 1) _ (runIteration_state env content st ja idx s hb hi).1
        (runIteration_state env content st ja idx s hb hi).2
    · exact runIteration_state env content st ja idx s hb hi

/-- Shared consequence of a successful run of the improvement loop: the
returned analysis keeps the input as `original_content`, every guard call
in the trace used the input as its baseline, and every recorded iteration
satisfies the round-robin invariant. -/
theorem improvement_ok_invariants (env : LoopEnv) (jd content : String) (st : SectionType)
    (ja : JobAnalysis) (a : SectionAnalysis) (tr : List String)
    (h : iterativeSectionImprovement env jd content st ja = .ok (a, tr)) :
    a.original_content = content ∧ (∀ b ∈ tr, b = content) ∧
    (∀ r ∈ a.iterations, perspectiveInv r) := by
  unfold iterativeSectionImprovement at h
  dsimp only at h
  split at h
  · split at h
    · split at h
      · simp at h
      · simp only [Except.ok.injEq, Prod.mk.injEq] at h
        obtain ⟨ha, htr⟩ := h
        subst ha; subst htr
        exact ⟨rfl, by simp, by simp⟩
    · simp only [Except.ok.injEq, Prod.mk.injEq] at h
      obtain ⟨ha, htr⟩ := h
      subst ha; subst htr
      exact ⟨rfl, by simp, by simp⟩
  · have hstate := runIterations_state env content st ja maxIterations 0
      { currentContent := content, bestContent := content, bestScore := 0,
        iterations := [], baselines := [] } (by simp) (by simp)
    split at h
    · split at h
      · simp at h
      · simp only [Except.ok.injEq, Prod.mk.injEq] at h
        obtain ⟨ha, htr⟩ := h
        subst ha; subst htr
        exact ⟨rfl, hstate.1, hstate.2⟩
    · simp only [Except.ok.injEq, Prod.mk.injEq] at h
      obtain ⟨ha, htr⟩ := h
      subst ha; subst htr
      exact ⟨rfl, hstate.1, hstate.2⟩

/-- C4.  When the pre-iteration fabrication check reports at least one
high-risk item (and the safe-formatting call succeeds), the loop returns
immediately: no iterations run, `bestContent` is the formatting-only safe
improvement of the original, `finalScore = 60`, `needsClarification` holds
and a `ClarificationRequest` is attached. -/
theorem blocked_path_C4 (env : LoopEnv) (jd content : String) (st : SectionType)
    (ja : JobAnalysis) (fmt : String)
    (hrisk : ((env.detectFabrication st content jd).fabrication_risks.filter
      (fun i => i.risk_level == "high")).length > 0)
    (hfmt : ensureProperFormatting env content st = .ok fmt) :
    ∃ a, iterativeSectionImprovement env jd content st ja = .ok (a, []) ∧
      a.iterations = [] ∧ a.final_score = 60 ∧ a.needs_clarification = true ∧
      a.clarification_request.isSome = true ∧ a.best_content = some fmt ∧
      a.original_content = content := by
  unfold iterativeSectionImprovement
  dsimp only
  rw [if_pos hrisk, hfmt]
  exact ⟨_, rfl, rfl, rfl, rfl, rfl, rfl, rfl⟩

/-- C4 witness: a concrete blocked section. -/
theorem blocked_path_C4_witness :
    ∃ a, iterativeSectionImprovement blockedEnv "jd" "Summary text" .SUMMARY emptyJobAnalysis =
      .ok (a, []) ∧ a.iterations = [] ∧ a.final_score = 60 ∧ a.needs_clarification = true ∧
      a.clarification_request.isSome = true ∧ a.best_content = some "Summary text" ∧
      a.original_content = "Summary text" :=
  blocked_path_C4 blockedEnv "jd" "Summary text" .SUMMARY emptyJobAnalysis "Summary text"
    (by decide) rfl

/-- C5.  (i) In every loop run, every Fabrication-Guard invocation uses
the section's original content as its baseline, and the returned analysis
keeps that content as `originalContent`; (ii) the clarification-seeded
re-analysis also keeps its original content; (iii) `accept_section_changes`
never changes the `originalContent` of any stored analysis. -/
theorem original_immutable_C5 :
    (∀ (env : LoopEnv) (jd content : String) (st : SectionType) (ja : JobAnalysis)
        (a : SectionAnalysis) (tr : List String),
        iterativeSectionImprovement env jd content st ja = .ok (a, tr) →
        (∀ b ∈ tr, b = content) ∧ a.original_content = content) ∧
    (∀ (env : LoopEnv) (orig : String) (st : SectionType) (ja : JobAnalysis) (u : String),
        (iterativeSectionImprovementWithClarification env orig st ja u).original_content = orig) ∧
    (∀ (sid sec : String) (acc : Bool) (st : AgentState) (s s' : Session),
        dictLookup st.sessions sid = some s →
        dictLookup (acceptSectionChanges sid sec acc st).2.sessions sid = some s' →
        ∀ k, (dictLookup s'.section_analyses k).map SectionAnalysis.original_content =
             (dictLookup s.section_analyses k).map SectionAnalysis.original_content) := by
  refine ⟨?_, ?_, ?_⟩
  · intro env jd content st ja a tr h
    have hinv := improvement_ok_invariants env jd content st ja a tr h
    exact ⟨hinv.2.1, hinv.1⟩
  · intro env orig st ja u
    rfl
  · intro sid sec acc st s s' hs hs' k
    unfold acceptSectionChanges at hs'
    rw [hs] at hs'
    dsimp only at hs'
    rw [dictLookup_insert_self] at hs'
    simp only [Option.some.injEq] at hs'
    subst hs'
    cases hA : dictLookup s.section_analyses sec with
    | none => simp [hA]
    | some analysis =>
      simp only [hA]
      by_cases hcond : (analysis.needs_clarification && acc) = true
      · simp only [hcond, if_true]
        by_cases hk : sec = k
        · subst hk
          rw [dictLookup_insert_self, hA]
          rfl
        · rw [dictLookup_insert_ne _ _ _ _ hk]
      · simp [hcond]

/-- C5 witness: concrete instances of all three parts. -/
theorem original_immutable_C5_witness :
    ("Python and Java" : String) = "Python and Java" ∧
    sampleAnalysis.original_content = "Python and Java" ∧
    (iterativeSectionImprovementWithClarification convergeEnv "Python" .SKILLS
      emptyJobAnalysis "used Docker").original_content = "Python" ∧
    (dictLookup ({ sessionWithPending with
        accepted_changes := [("skills", true)] } : Session).section_analyses "skills").map
      SectionAnalysis.original_content =
      (dictLookup sessionWithPending.section_analyses "skills").map
        SectionAnalysis.original_content := by
  refine ⟨?_, ?_, ?_, ?_⟩
  · exact (original_immutable_C5.1 convergeEnv "jd" "Python and Java" .SUMMARY emptyJobAnalysis
      sampleAnalysis ["Python and Java"] (by rfl)).1 "Python and Java" (List.mem_singleton.mpr rfl)
  · exact (original_immutable_C5.1 convergeEnv "jd" "Python and Java" .SUMMARY emptyJobAnalysis
      sampleAnalysis ["Python and Java"] (by rfl)).2
  · exact original_immutable_C5.2.1 convergeEnv "Python" .SKILLS emptyJobAnalysis "used Docker"
  · exact original_immutable_C5.2.2 "a" "skills" true stateWithPending sessionWithPending
      _ rfl rfl "skills"

/-- C6 (counterexample).  The claim indexes the rotation with the 1-based
iteration number `i mod 6`; in the code the first (1-based) iteration uses
`perspective_rotation[0]` (`hiring_manager`), not
`perspective_rotation[1 mod 6]` (`technical_lead`). -/
theorem round_robin_counterexample_C6 :
    iterativeSectionImprovement convergeEnv "jd" "Python and Java" .SUMMARY emptyJobAnalysis =
      .ok (sampleAnalysis, ["Python and Java"]) ∧
    sampleAnalysis.iterations.map (fun r => (r.version, r.perspective)) =
      [(1, .HIRING_MANAGER)] ∧
    perspectiveRotation.getD (1 % perspectiveRotation.length) .HIRING_MANAGER =
      .TECHNICAL_LEAD ∧
    AnalysisPerspective.HIRING_MANAGER ≠ .TECHNICAL_LEAD :=
  ⟨by rfl, by rfl, rfl, by decide⟩

/-- C6 (amended).  Every recorded iteration of every successful loop run
has a positive 1-based version `i` whose perspective is
`perspectiveRotation[(i - 1) mod len]` — equivalently the 0-based loop
counter modulo the rotation length, one position earlier than the claim's
`i mod len`. -/
theorem round_robin_C6 (env : LoopEnv) (jd content : String) (st : SectionType)
    (ja : JobAnalysis) (a : SectionAnalysis) (tr : List String)
    (h : iterativeSectionImprovement env jd content st ja = .ok (a, tr)) :
    ∀ r ∈ a.iterations, 1 ≤ r.version ∧
      r.perspective = perspectiveRotation.getD ((r.version - 1) % perspectiveRotation.length)
        .HIRING_MANAGER :=
  fun r hr => (improvement_ok_invariants env jd content st ja a tr h).2.2 r hr

/-- C6 witness: the recorded first iteration of the sample run satisfies
the amended indexing. -/
theorem round_robin_C6_witness :
    1 ≤ (1 : Nat) ∧
    AnalysisPerspective.HIRING_MANAGER =
      perspectiveRotation.getD ((1 - 1) % perspectiveRotation.length) .HIRING_MANAGER :=
  round_robin_C6 convergeEnv "jd" "Python and Java" .SUMMARY emptyJobAnalysis sampleAnalysis
    ["Python and Java"] (by rfl) sampleIteration (List.mem_singleton.mpr rfl)

/-! ## Section-processing lemmas -/

theorem dictContains_head {α : Type} (d : List (String × α)) (k : String) (v : α) :
    dictContains ((k, v) :: d) k = true := by
  simp [dictContains, dictLookup]

theorem dictContains_cons {α : Type} (d : List (String × α)) (k k' : String) (v : α)
    (h : dictContains d k = true) : dictContains ((k', v) :: d) k = true := by
  unfold dictContains dictLookup
  split
  · rfl
  · exact h

/-- Invariants of the per-section fold: every schedulable section of the
order ends with an entry in `completed_analyses`, and every completed
entry flagged `needs_clarification` has its key in
`pending_clarifications`. -/
theorem processSectionsAux_props (env : LoopEnv) (jd : String) (ja : JobAnalysis)
    (parsed : List (String × String)) :
    ∀ (order : List SectionType) (session : Session),
      (∀ t ∈ order, ∀ content, dictLookup parsed t.value = some content →
        pyStrip content ≠ "" →
        dictContains (processSectionsAux env jd ja parsed order session).1.1 t.value = true) ∧
      (∀ k ca, (k, ca) ∈ (processSectionsAux env jd ja parsed order session).1.1 →
        ca.needs_clarification = true →
        dictContains (processSectionsAux env jd ja parsed order session).1.2.1 k = true) := by
  intro order
  induction order with
  | nil =>
    intro session
    constructor
    · intro t ht; simp at ht
    · intro k ca hmem _; simp [processSectionsAux] at hmem
  | cons t rest ih =>
    intro session
    unfold processSectionsAux
    dsimp only
    cases hL : dictLookup parsed t.value with
    | none =>
      constructor
      · intro t' ht' content hc hstrip
        rcases List.mem_cons.mp ht' with rfl | hmem
        · rw [hL] at hc
          simp at hc
        · exact (ih session).1 t' hmem content hc hstrip
      · exact (ih session).2
    | some content0 =>
      dsimp only
      by_cases hstrip0 : pyStrip content0 = ""
      · rw [if_pos hstrip0]
        constructor
        · intro t' ht' content hc hstrip
          rcases List.mem_cons.mp ht' with rfl | hmem
          · rw [hL] at hc
            injection hc with he
            rw [← he] at hstrip
            exact absurd hstrip0 hstrip
          · exact (ih session).1 t' hmem content hc hstrip
        · exact (ih session).2
      · rw [if_neg hstrip0]
        cases hI : iterativeSectionImprovement env jd content0 t ja with
        | error e =>
          dsimp only
          constructor
          · intro t' ht' content hc hstrip
            rcases List.mem_cons.mp ht' with rfl | hmem
            · exact dictContains_head ..
            · exact dictContains_cons _ _ _ _ ((ih _).1 t' hmem content hc hstrip)
          · intro k ca hmem hneeds
            rcases List.mem_cons.mp hmem with heq | htail
            · injection heq with hk hca
              rw [hca] at hneeds
              simp at hneeds
            · exact (ih _).2 k ca htail hneeds
        | ok pair =>
          obtain ⟨analysis, tr⟩ := pair
          dsimp only
          by_cases hNC : analysis.needs_clarification = true
          · rw [if_pos hNC]
            cases hR : analysis.clarification_request with
            | some req =>
              dsimp only
              constructor
              · intro t' ht' content hc hstrip
                rcases List.mem_cons.mp ht' with rfl | hmem
                · exact dictContains_head ..
                · exact dictContains_cons _ _ _ _ ((ih _).1 t' hmem content hc hstrip)
              · intro k ca hmem hneeds
                rcases List.mem_cons.mp hmem with heq | htail
                · injection heq with hk hca
                  rw [hk]
                  exact dictContains_head ..
                · exact dictContains_cons _ _ _ _ ((ih _).2 k ca htail hneeds)
            | none =>
              dsimp only
              constructor
              · intro t' ht' content hc hstrip
                rcases List.mem_cons.mp ht' with rfl | hmem
                · exact dictContains_head ..
                · exact dictContains_cons _ _ _ _ ((ih _).1 t' hmem content hc hstrip)
              · intro k ca hmem hneeds
                rcases List.mem_cons.mp hmem with heq | htail
                · injection heq with hk hca
                  rw [hca] at hneeds
                  simp [completedEntryNormal] at hneeds
                · exact (ih _).2 k ca htail hneeds
          · rw [if_neg hNC]
            constructor
            · intro t' ht' content hc hstrip
              rcases List.mem_cons.mp ht' with rfl | hmem
              · exact dictContains_head ..
              · exact dictContains_cons _ _ _ _ ((ih _).1 t' hmem content hc hstrip)
            · intro k ca hmem hneeds
              rcases List.mem_cons.mp hmem with heq | htail
              · injection heq with hk hca
                rw [hca] at hneeds
                simp [completedEntryNormal] at hneeds
              · exact (ih _).2 k ca htail hneeds

/-- C7.  A successful `start_analysis` processes every schedulable section
of the fixed analysis order (none is skipped because an earlier one
blocked), every blocked section's key is present in
`pending_clarifications`, and `needs_clarification` holds exactly when
that map is non-empty. -/
theorem clarification_batching_C7 (env : AgentEnv) (sid resumeText jobDescription : String)
    (st : AgentState) (r : StartResult) (st2 : AgentState)
    (h : startAnalysis env sid resumeText jobDescription st = (r, st2))
    (hsucc : r.success = true) :
    (∀ t ∈ analysisOrder, ∀ content,
        dictLookup (env.parseSections resumeText) t.value = some content →
        pyStrip content ≠ "" → dictContains r.section_analyses t.value = true) ∧
    (∀ k ca, (k, ca) ∈ r.section_analyses → ca.needs_clarification = true →
        dictContains r.pending_clarifications k = true) ∧
    (r.needs_clarification = true ↔ r.pending_clarifications ≠ []) := by
  unfold startAnalysis at h
  dsimp only at h
  split at h
  · injection h with h1 h2
    rw [← h1] at hsucc
    simp [StartResult.failure] at hsucc
  · injection h with h1 h2
    subst h1
    have hp := processSectionsAux_props env.loop jobDescription
      (env.analyzeJob jobDescription) (env.parseSections resumeText) analysisOrder
      { resume_text := resumeText, job_description := jobDescription,
        sections := env.parseSections resumeText,
        job_analysis := env.analyzeJob jobDescription, section_analyses := [],
        accepted_changes := [], current_section_index := 0, needs_clarification := false,
        pending_clarifications := [], pending_clarification_legacy := none }
    refine ⟨hp.1, hp.2, ?_⟩
    simp only [processSections]
    constructor
    · intro hd
      simp only [decide_eq_true_eq] at hd
      exact List.ne_nil_of_length_pos hd
    · intro hne
      simp only [decide_eq_true_eq]
      exact List.length_pos.mpr hne

/-- C7 witness: a document with both `skills` and `experience` triggering
high-risk fabrication yields `needsClarification` with both keys pending. -/
theorem clarification_batching_C7_witness :
    (startAnalysis agentEnvBlocked "a" "resume" "jd"
      { sessions := [], original_job_description := "" }).1.needs_clarification = true ∧
    dictContains (startAnalysis agentEnvBlocked "a" "resume" "jd"
      { sessions := [], original_job_description := "" }).1.pending_clarifications "skills" = true ∧
    dictContains (startAnalysis agentEnvBlocked "a" "resume" "jd"
      { sessions := [], original_job_description := "" }).1.pending_clarifications "experience" = true := by
  refine ⟨?_, by decide, by decide⟩
  exact (clarification_batching_C7 agentEnvBlocked "a" "resume" "jd"
    { sessions := [], original_job_description := "" } _ _ rfl (by rfl)).2.2.mpr (by decide)

/-! ## Clarified-loop lemmas -/

theorem runClarifyIteration_congr (env1 env2 : LoopEnv) (o u : String) (stype : SectionType)
    (ja : JobAnalysis) (h1 : env1.clarifyGenerate = env2.clarifyGenerate)
    (h2 : env1.scoreResponse = env2.scoreResponse)
    (h3 : env1.evaluateContent = env2.evaluateContent) (idx : Nat) (s : LoopState) :
    runClarifyIteration env1 o u stype ja idx s = runClarifyIteration env2 o u stype ja idx s := by
  unfold runClarifyIteration generateContentWithClarification
  rw [h1, h2, h3]

theorem runClarifyIterations_congr (env1 env2 : LoopEnv) (o u : String) (stype : SectionType)
    (ja : JobAnalysis) (h1 : env1.clarifyGenerate = env2.clarifyGenerate)
    (h2 : env1.scoreResponse = env2.scoreResponse)
    (h3 : env1.evaluateContent = env2.evaluateContent) :
    ∀ (fuel idx : Nat) (s : LoopState),
      runClarifyIterations env1 o u stype ja fuel idx s =
      runClarifyIterations env2 o u stype ja fuel idx s := by
  intro fuel
  induction fuel with
  | zero => intro idx s; rfl
  | succ n ih =>
    intro idx s
    unfold runClarifyIterations
    rw [runClarifyIteration_congr env1 env2 o u stype ja h1 h2 h3 idx s]
    dsimp only
    split
    · exact ih (idx + 1) _
    · rfl

/-- C8.  (i) an unknown session or (ii) a section without a pending
clarification fails with the not-found outcome and leaves the state
unchanged; (iii) on success exactly that section is erased from
`pending_clarifications`, the re-analysis is stored with
`needs_clarification = false`, and the session flag equals "some pending
clarification remains"; (iv) the re-analysis never consults the
pre-iteration fabrication-check oracle. -/
theorem provide_clarification_C8 :
    (∀ (env : AgentEnv) (sid sec resp : String) (st : AgentState),
        dictLookup st.sessions sid = none →
        provideClarification env sid sec resp st = (ClarifyResult.failure, st)) ∧
    (∀ (env : AgentEnv) (sid sec resp : String) (st : AgentState) (s : Session),
        dictLookup st.sessions sid = some s →
        dictLookup s.pending_clarifications sec = none →
        provideClarification env sid sec resp st = (ClarifyResult.failure, st)) ∧
    (∀ (env : AgentEnv) (sid sec resp : String) (st : AgentState) (s : Session)
        (pc : PendingClarification),
        dictLookup st.sessions sid = some s →
        dictLookup s.pending_clarifications sec = some pc →
        ∃ s', dictLookup (provideClarification env sid sec resp st).2.sessions sid = some s' ∧
          (provideClarification env sid sec resp st).1.success = true ∧
          s'.pending_clarifications = dictErase s.pending_clarifications sec ∧
          dictLookup s'.section_analyses sec =
            some (iterativeSectionImprovementWithClarification env.loop pc.original_content
              (sectionTypeFromValue sec) s.job_analysis resp) ∧
          (iterativeSectionImprovementWithClarification env.loop pc.original_content
              (sectionTypeFromValue sec) s.job_analysis resp).needs_clarification = false ∧
          (s'.needs_clarification = true ↔ s'.pending_clarifications ≠ [])) ∧
    (∀ (env1 env2 : LoopEnv) (orig : String) (stype : SectionType) (ja : JobAnalysis)
        (u : String),
        env1.clarifyGenerate = env2.clarifyGenerate →
        env1.scoreResponse = env2.scoreResponse →
        env1.evaluateContent = env2.evaluateContent →
        iterativeSectionImprovementWithClarification env1 orig stype ja u =
        iterativeSectionImprovementWithClarification env2 orig stype ja u) := by
  refine ⟨?_, ?_, ?_, ?_⟩
  · intro env sid sec resp st hn
    unfold provideClarification
    rw [hn]
  · intro env sid sec resp st s hs hn
    unfold provideClarification
    rw [hs]
    dsimp only
    rw [hn]
  · intro env sid sec resp st s pc hs hpc
    unfold provideClarification
    rw [hs]
    dsimp only
    rw [hpc]
    dsimp only
    refine ⟨{ s with
        section_analyses := dictInsert s.section_analyses sec
          (iterativeSectionImprovementWithClarification env.loop pc.original_content
            (sectionTypeFromValue sec) s.job_analysis resp)
        pending_clarifications := dictErase s.pending_clarifications sec
        needs_clarification := decide ((dictErase s.pending_clarifications sec).length > 0) },
      ?_, ?_, ?_, ?_, ?_, ?_⟩
    · rw [dictLookup_insert_self]
    · rfl
    · rfl
    · rw [dictLookup_insert_self]
    · rfl
    · dsimp only
      constructor
      · intro hd
        simp only [decide_eq_true_eq] at hd
        exact List.ne_nil_of_length_pos hd
      · intro hne
        simp only [decide_eq_true_eq]
        exact List.length_pos.mpr hne
  · intro env1 env2 orig stype ja u h1 h2 h3
    unfold iterativeSectionImprovementWithClarification
    dsimp only
    rw [runClarifyIterations_congr env1 env2 orig u stype ja h1 h2 h3]

/-- C8 witness: a concrete session exercising the unknown-session failure,
missing-pending failure, the successful path, and the fabrication-oracle
independence of the re-analysis (`blockedEnv` differs from `convergeEnv`
only in `detectFabrication`). -/
theorem provide_clarification_C8_witness :
    provideClarification agentEnvConverge "zzz" "skills" "x" stateWithPending =
      (ClarifyResult.failure, stateWithPending) ∧
    provideClarification agentEnvConverge "a" "experience" "x" stateWithPending =
      (ClarifyResult.failure, stateWithPending) ∧
    (provideClarification agentEnvConverge "a" "skills" "used Docker"
      stateWithPending).1.success = true ∧
    (iterativeSectionImprovementWithClarification agentEnvConverge.loop
      pendingSkills.original_content (sectionTypeFromValue "skills")
      sessionWithPending.job_analysis "used Docker").needs_clarification = false ∧
    iterativeSectionImprovementWithClarification convergeEnv "Python" .SKILLS
        emptyJobAnalysis "u" =
      iterativeSectionImprovementWithClarification blockedEnv "Python" .SKILLS
        emptyJobAnalysis "u" := by
  obtain ⟨s', hlook, hsucc, hpend, hana, hneeds, hiff⟩ :=
    provide_clarification_C8.2.2.1 agentEnvConverge "a" "skills" "used Docker"
      stateWithPending sessionWithPending pendingSkills rfl rfl
  refine ⟨?_, ?_, hsucc, hneeds, ?_⟩
  · exact provide_clarification_C8.1 agentEnvConverge "zzz" "skills" "x" stateWithPending rfl
  · exact provide_clarification_C8.2.1 agentEnvConverge "a" "experience" "x" stateWithPending
      sessionWithPending rfl rfl
  · exact provide_clarification_C8.2.2.2 convergeEnv blockedEnv "Python" .SKILLS
      emptyJobAnalysis "u" rfl rfl rfl

/-! ## Final-assembly lemmas -/

theorem finalBlocks_spec (acc : List (String × Bool)) :
    ∀ l, finalBlocks acc l = finalBlocksSpec acc l := by
  intro l
  induction l with
  | nil => rfl
  | cons hd tl ih =>
    obtain ⟨k, a⟩ := hd
    have hsel : (match dictLookup acc k with
        | some true =>
          if bestHasContent a.best_content then a.best_content.getD "" else a.original_content
        | some false => a.original_content
        | none =>
          if bestHasContent a.best_content && !a.needs_clarification then a.best_content.getD ""
          else a.original_content) = finalSelectionSpec (dictLookup acc k) a := by
      unfold finalSelectionSpec
      cases dictLookup acc k with
      | none =>
        by_cases hn : a.needs_clarification = true
        · simp [hn]
        · simp only [Bool.not_eq_true] at hn
          simp [hn]
      | some b => cases b <;> rfl
    unfold finalBlocks finalBlocksSpec
    dsimp only
    rw [hsel, List.filterMap_cons]
    dsimp only
    by_cases hc : finalSelectionSpec (dictLookup acc k) a = ""
    · rw [if_pos hc, if_pos hc]
      exact ih
    · rw [if_neg hc, if_neg hc]
      dsimp only
      rw [ih]
      rfl

/-- C9 (counterexample).  An accepted section whose `bestContent` is the
empty string is assembled from its `originalContent`, not from
`bestContent` as the claim states. -/
theorem final_assembly_counterexample_C9 :
    (generateFinalResume stateBlankBest "s").final_resume =
      some ("=== SKILLS ===" ++ "\n" ++ "Python and Java") ∧
    dictLookup sessionBlankBest.accepted_changes "skills" = some true ∧
    blankBestAnalysis.best_content = some "" ∧
    "Python and Java" ≠ "" :=
  ⟨by rfl, rfl, rfl, by decide⟩

/-- C9 (amended).  `generateFinal` assembles, for each analyzed section in
order, the content selected by: `bestContent` if accepted (original when
`bestContent` is blank); `originalContent`, byte-for-byte, if rejected;
with no decision, `originalContent` while the section needs clarification
and `bestContent` otherwise (original when blank); sections whose selected
content is empty are skipped. -/
theorem final_assembly_C9 :
    (∀ (st : AgentState) (sid : String) (session : Session),
        dictLookup st.sessions sid = some session →
        generateFinalResume st sid =
          { success := true,
            final_resume := some (strIntercalate "\n\n"
              (finalBlocksSpec session.accepted_changes session.section_analyses)),
            sections := session.section_analyses.map Prod.fst }) ∧
    (∀ (d : Option Bool) (a : SectionAnalysis), d = some false →
        finalSelectionSpec d a = a.original_content) := by
  constructor
  · intro st sid session hs
    unfold generateFinalResume
    rw [hs]
    dsimp only
    rw [finalBlocks_spec]
  · intro d a hd
    subst hd
    rfl

/-- C9 witness: the amended selection applied to the concrete blank-best
session, and the rejection rule at a concrete analysis. -/
theorem final_assembly_C9_witness :
    generateFinalResume stateBlankBest "s" =
      { success := true,
        final_resume := some (strIntercalate "\n\n"
          (finalBlocksSpec sessionBlankBest.accepted_changes
            sessionBlankBest.section_analyses)),
        sections := sessionBlankBest.section_analyses.map Prod.fst } ∧
    finalSelectionSpec (some false) blankBestAnalysis = blankBestAnalysis.original_content :=
  ⟨final_assembly_C9.1 stateBlankBest "s" sessionBlankBest rfl,
   final_assembly_C9.2 (some false) blankBestAnalysis rfl⟩

/-! ## Noninterference lemmas -/

/-- Frame property: an operation addressed to session `b` never changes
the stored session of a different id `a`. -/
theorem stepOp_frame (env : AgentEnv) (b : String) (op : SessionOp) (st : AgentState)
    (a : String) (hab : a ≠ b) :
    dictLookup (stepOp env b op st).2.sessions a = dictLookup st.sessions a := by
  cases op with
  | startOp rt jd =>
    simp only [stepOp, startAnalysis]
    split
    · rfl
    · exact dictLookup_insert_ne _ _ _ _ (fun h => hab h.symm)
  | clarifyOp sec resp =>
    simp only [stepOp, provideClarification]
    cases dictLookup st.sessions b with
    | none => rfl
    | some s =>
      dsimp only
      cases dictLookup s.pending_clarifications sec with
      | none => rfl
      | some pc => exact dictLookup_insert_ne _ _ _ _ (fun h => hab h.symm)
  | acceptOp sec accepted =>
    simp only [stepOp, acceptSectionChanges]
    cases dictLookup st.sessions b with
    | none => rfl
    | some s => exact dictLookup_insert_ne _ _ _ _ (fun h => hab h.symm)
  | finalOp => rfl
  | statusOp => rfl
  | sectionQueryOp sec => rfl

/-- Locality: the output of an operation addressed to session `a`, and the
resulting stored session of `a`, depend only on the stored session of `a`
(and the operation's own arguments and environment). -/
theorem stepOp_localized (env : AgentEnv) (a : String) (op : SessionOp)
    (s1 s2 : AgentState) (hA : dictLookup s1.sessions a = dictLookup s2.sessions a) :
    (stepOp env a op s1).1 = (stepOp env a op s2).1 ∧
    dictLookup (stepOp env a op s1).2.sessions a =
      dictLookup (stepOp env a op s2).2.sessions a := by
  cases op with
  | startOp rt jd =>
    simp only [stepOp, startAnalysis]
    split
    · exact ⟨rfl, hA⟩
    · exact ⟨rfl, by rw [dictLookup_insert_self, dictLookup_insert_self]⟩
  | clarifyOp sec resp =>
    simp only [stepOp, provideClarification]
    rw [hA]
    cases dictLookup s2.sessions a with
    | none => exact ⟨rfl, hA⟩
    | some s =>
      dsimp only
      cases dictLookup s.pending_clarifications sec with
      | none => exact ⟨rfl, hA⟩
      | some pc =>
        exact ⟨rfl, by rw [dictLookup_insert_self, dictLookup_insert_self]⟩
  | acceptOp sec accepted =>
    simp only [stepOp, acceptSectionChanges]
    rw [hA]
    cases dictLookup s2.sessions a with
    | none => exact ⟨rfl, hA⟩
    | some s =>
      exact ⟨rfl, by rw [dictLookup_insert_self, dictLookup_insert_self]⟩
  | finalOp =>
    simp only [stepOp, generateFinalResume]
    rw [hA]
    exact ⟨rfl, rfl⟩
  | statusOp =>
    simp only [stepOp, getSessionStatus]
    rw [hA]
    exact ⟨rfl, rfl⟩
  | sectionQueryOp sec =>
    simp only [stepOp, analyzeSection]
    rw [hA]
    exact ⟨rfl, rfl⟩

/-- C10.  Two-run noninterference of distinct sessions: interposing any
operation addressed to session `b` between operations on session `a ≠ b`
changes neither the output of `a`'s next operation nor `a`'s stored
session afterwards.  (The only shared mutable field,
`original_job_description`, is written by `start_analysis` before its own
reads and is never read by any other reachable operation: the legacy
continuation that would read it sits after an unconditional `return`.) -/
theorem session_noninterference_C10 (env : AgentEnv) (st : AgentState) (a b : String)
    (opA opB : SessionOp) (hab : a ≠ b) :
    (stepOp env a opA (stepOp env b opB st).2).1 = (stepOp env a opA st).1 ∧
    dictLookup (stepOp env a opA (stepOp env b opB st).2).2.sessions a =
      dictLookup (stepOp env a opA st).2.sessions a :=
  stepOp_localized env a opA _ st (stepOp_frame env b opB st a hab)

/-- C10 witness: a concrete interleaving — session `b` starts an analysis
between session `a`'s operations. -/
theorem session_noninterference_C10_witness :
    (stepOp agentEnvConverge "a" (.clarifyOp "skills" "used Docker")
        (stepOp agentEnvConverge "b" (.startOp "resume" "jd2") stateWithPending).2).1 =
      (stepOp agentEnvConverge "a" (.clarifyOp "skills" "used Docker") stateWithPending).1 ∧
    dictLookup (stepOp agentEnvConverge "a" (.clarifyOp "skills" "used Docker")
        (stepOp agentEnvConverge "b" (.startOp "resume" "jd2") stateWithPending).2).2.sessions "a" =
      dictLookup (stepOp agentEnvConverge "a" (.clarifyOp "skills" "used Docker")
        stateWithPending).2.sessions "a" :=
  session_noninterference_C10 agentEnvConverge stateWithPending "a" "b"
    (.clarifyOp "skills" "used Docker") (.startOp "resume" "jd2") (by decide)
